import Mathlib

/-!
Verification of the Shopify integration layer
(`integrations copy/shopify/` : `client.py`, `webhooks/handlers.py`,
`capability_checker.py`).

The Python code is shallowly embedded: strings are `List Char`, byte
strings are `List Nat` (each entry < 256), Python `float` time and delay
values are modelled exactly as rationals (all arithmetic performed on
them — powers of two up to 30, sums and differences of small values —
is exact in IEEE double, so `ℚ` is a faithful model), and the network
is a script of responses consumed one per physical HTTP attempt.
-/

namespace Shopify

/-! ## Python string primitives (on `List Char`) -/

/-- Python `str.split(sep)` for a one-character separator: splits on every
occurrence, keeping empty pieces (`"a,,b".split(",") == ["a","","b"]`). -/
def splitOnChar (c : Char) : List Char → List (List Char)
  | [] => [[]]
  | x :: xs =>
    let r := splitOnChar c xs
    if x = c then [] :: r
    else
      match r with
      | [] => [[x]]
      | h :: t => (x :: h) :: t

/-- Substring containment, Python `needle in hay`. -/
def containsSub (needle hay : List Char) : Bool :=
  hay.tails.any (fun t => needle.isPrefixOf t)

/-- Python `str.isspace` on the ASCII whitespace characters
(sufficient for the header fragments the code strips). -/
def isPySpace (c : Char) : Bool :=
  c = ' ' || c = '\t' || c = '\n' || c = '\x0b' || c = '\x0c' || c = '\r'

/-- Python `str.strip()` (no argument): remove leading and trailing
whitespace. -/
def pyStrip (l : List Char) : List Char :=
  ((l.dropWhile isPySpace).reverse.dropWhile isPySpace).reverse

/-- Python `str.strip(chars)` for a set of characters given as a list. -/
def pyStripSet (cs : List Char) (l : List Char) : List Char :=
  ((l.dropWhile (fun c => c ∈ cs)).reverse.dropWhile (fun c => c ∈ cs)).reverse

/-- Python `domain.rstrip("/")`: remove all trailing slashes. -/
def rstripSlash (l : List Char) : List Char :=
  (l.reverse.dropWhile (fun c => c = '/')).reverse

/-! ## `urllib.parse` fragments used by the client

`urlparse(url).netloc` / `.path` for a URL whose scheme prefix has
already been removed (the client only calls `urlparse` after checking
`domain.startswith(("http://", "https://"))`), and `.query` extraction
for the `Link`-header URLs. -/

/-- Model of `urllib.parse._splitparams`: strip the `;params` part from the last
path segment. -/
def splitparams (p : List Char) : List Char :=
  if '/' ∈ p then
    let afterLast := (p.reverse.takeWhile (fun c => c ≠ '/')).reverse
    let before := p.take (p.length - afterLast.length)
    before ++ afterLast.takeWhile (fun c => c ≠ ';')
  else p.takeWhile (fun c => c ≠ ';')

/-- A character that does not terminate the netloc part of a URL. -/
def netlocPred (c : Char) : Bool := ¬ (c = '/' ∨ c = '?' ∨ c = '#')

/-- The `urlparse` netloc/path split, applied to the part of the URL after
the `scheme://` prefix: the netloc runs up to the first `/`, `?` or `#`;
the path is what follows up to the first `?` or `#`, with `;params`
stripped from its last segment. -/
def urlparseNetlocPath (rest : List Char) : List Char × List Char :=
  let netloc := rest.takeWhile netlocPred
  let r2 := rest.drop netloc.length
  let path0 := (r2.takeWhile (fun c => c ≠ '#')).takeWhile (fun c => c ≠ '?')
  (netloc, splitparams path0)

/-- Model of `urlparse(url).query`: the part after the first `?`, with the
fragment (everything from the first `#`) removed first. -/
def urlparseQuery (u : List Char) : List Char :=
  let noFrag := u.takeWhile (fun c => c ≠ '#')
  match noFrag.dropWhile (fun c => c ≠ '?') with
  | [] => []
  | _ :: q => q

/-- Hexadecimal digit value, `none` for a non-hex character. -/
def hexVal (c : Char) : Option Nat :=
  if '0' ≤ c ∧ c ≤ '9' then some (c.toNat - '0'.toNat)
  else if 'a' ≤ c ∧ c ≤ 'f' then some (c.toNat - 'a'.toNat + 10)
  else if 'A' ≤ c ∧ c ≤ 'F' then some (c.toNat - 'A'.toNat + 10)
  else none

/-- Model of `urllib.parse.unquote_plus`: a `+` becomes a space and `%XX` (two hex
digits) becomes the character with that code; malformed escapes are kept
verbatim. -/
def unquotePlus : List Char → List Char
  | [] => []
  | '%' :: a :: b :: rest =>
    match hexVal a, hexVal b with
    | some x, some y => Char.ofNat (16 * x + y) :: unquotePlus rest
    | _, _ => '%' :: unquotePlus (a :: b :: rest)
  | '+' :: rest => ' ' :: unquotePlus rest
  | c :: rest => c :: unquotePlus rest

/-- Split a query pair at the first `=`; `none` when there is no `=`. -/
def partitionEq (l : List Char) : Option (List Char × List Char) :=
  if '=' ∈ l then
    some (l.takeWhile (fun c => c ≠ '='),
      match l.dropWhile (fun c => c ≠ '=') with
      | [] => []
      | _ :: v => v)
  else none

/-- Model of `urllib.parse.parse_qsl` with default options: split the query on
`&`, drop pairs without `=` and pairs with an empty value, and
`unquote_plus` both name and value. -/
def parseQsl (query : List Char) : List (List Char × List Char) :=
  (splitOnChar '&' query).filterMap (fun pair =>
    if pair = [] then none
    else
      match partitionEq pair with
      | none => none
      | some (n, v) => if v = [] then none else some (unquotePlus n, unquotePlus v))

/-- The value of `parse_qs(query)["page_info"][0]` as an `Option`: the value of the
first `page_info` pair, if any. -/
def firstQsValue (key : List Char) (query : List Char) : Option (List Char) :=
  ((parseQsl query).find? (fun p => p.1 = key)).map (fun p => p.2)

/-! ## `ShopifyAdminClient._normalize_domain` -/

def SHOPIFY_SUFFIX : List Char := ".myshopify.com".toList

def HTTP_PREFIX : List Char := "http://".toList

def HTTPS_PREFIX : List Char := "https://".toList

/-- First step of `_normalize_domain`: when the domain starts with
`http://` or `https://`, run it through `urlparse` and take
`parsed.netloc or parsed.path` (the netloc when non-empty, else the
path). -/
def schemeStripped (d : List Char) : List Char :=
  if HTTP_PREFIX.isPrefixOf d then
    let np := urlparseNetlocPath (d.drop 7)
    if np.1 ≠ [] then np.1 else np.2
  else if HTTPS_PREFIX.isPrefixOf d then
    let np := urlparseNetlocPath (d.drop 8)
    if np.1 ≠ [] then np.1 else np.2
  else d

/-- Last step of `_normalize_domain`: append `.myshopify.com` when the
domain neither ends in that suffix nor contains a dot. -/
def ensureSuffix (l : List Char) : List Char :=
  if SHOPIFY_SUFFIX.isSuffixOf l then l
  else if '.' ∈ l then l
  else l ++ SHOPIFY_SUFFIX

/-- Model of `ShopifyAdminClient._normalize_domain`: strip an exact
`http://`/`https://` prefix through `urlparse` (taking `netloc or
path`), remove trailing slashes (`domain.rstrip("/")`), and append
`.myshopify.com` when the result neither ends in that suffix nor
contains a dot. -/
def normalizeDomain (d : List Char) : List Char :=
  ensureSuffix (rstripSlash (schemeStripped d))

/-- String-level wrapper of `normalizeDomain`. -/
def normalizeDomainStr (s : String) : String :=
  ⟨normalizeDomain s.toList⟩

/-! ## Lemmas about the string primitives -/

theorem isPrefixOfIff (l₁ l₂ : List Char) : l₁.isPrefixOf l₂ = true ↔ l₁ <+: l₂ :=
  List.isPrefixOf_iff_prefix

theorem rstripSlash_eq_rdropWhile (l : List Char) :
    rstripSlash l = List.rdropWhile (fun c => c = '/') l := rfl

theorem rstripSlash_getLast? (l : List Char) :
    (rstripSlash l).getLast? ≠ some '/' := by
  rw [rstripSlash_eq_rdropWhile]
  intro h
  rcases hr : List.rdropWhile (fun c => c = '/') l with _ | _
  · rw [hr] at h; simp at h
  · have hne : List.rdropWhile (fun c => c = '/') l ≠ [] := by rw [hr]; simp
    have := List.rdropWhile_last_not (fun c => c = '/') l hne
    rw [List.getLast?_eq_getLast_of_ne_nil hne] at h
    simp only [Option.some.injEq] at h
    simp [h] at this

theorem rstripSlash_isPrefix (l : List Char) : rstripSlash l <+: l := by
  rw [rstripSlash_eq_rdropWhile]; exact List.rdropWhile_prefix _ _

theorem rstripSlash_eq_self (l : List Char) (h : l.getLast? ≠ some '/') :
    rstripSlash l = l := by
  rw [rstripSlash_eq_rdropWhile, List.rdropWhile_eq_self_iff]
  intro hl
  rw [List.getLast?_eq_getLast_of_ne_nil hl] at h
  simpa using fun he => h (by rw [he])

theorem drop_length_takeWhile {α : Type} (q : α → Bool) :
    ∀ l : List α, l.drop (l.takeWhile q).length = l.dropWhile q
  | [] => rfl
  | c :: t => by
    by_cases h : q c
    · simp only [List.takeWhile_cons, List.dropWhile_cons, h, if_pos]
      simpa using drop_length_takeWhile q t
    · simp [List.takeWhile_cons, List.dropWhile_cons, h]

theorem dropWhile_head?_not {α : Type} (q : α → Bool) :
    ∀ (l : List α) (c : α), (l.dropWhile q).head? = some c → q c = false
  | [], c => by simp
  | x :: t, c => by
    by_cases h : q x
    · simp only [List.dropWhile_cons, h, if_pos]
      exact dropWhile_head?_not q t c
    · rw [List.dropWhile_cons, if_neg (by simpa using h)]
      simp only [List.head?_cons, Option.some.injEq]
      intro he
      subst he
      simpa using h

theorem splitparams_isPrefix (p : List Char) : splitparams p <+: p := by
  by_cases hs : '/' ∈ p
  · simp only [splitparams, if_pos hs]
    obtain ⟨pre, hpre⟩ := List.rtakeWhile_suffix (fun c => c ≠ '/') p
    have hafter : (p.reverse.takeWhile (fun c => c ≠ '/')).reverse
        = List.rtakeWhile (fun c => c ≠ '/') p := rfl
    rw [hafter]
    have hlen : p.length - (List.rtakeWhile (fun c => c ≠ '/') p).length = pre.length := by
      have := congrArg List.length hpre
      simp only [List.length_append] at this
      omega
    have htake : p.take (p.length - (List.rtakeWhile (fun c => c ≠ '/') p).length) = pre := by
      rw [hlen, ← hpre, List.take_left]
    rw [htake]
    have hpr : (List.rtakeWhile (fun c => c ≠ '/') p).takeWhile (fun c => c ≠ ';')
        <+: List.rtakeWhile (fun c => c ≠ '/') p := List.takeWhile_prefix _
    obtain ⟨t, ht⟩ := hpr
    exact ⟨t, by rw [List.append_assoc, ht, hpre]⟩
  · simp only [splitparams, if_neg hs]
    exact List.takeWhile_prefix _

theorem netloc_no_slash (rest : List Char) : '/' ∉ (urlparseNetlocPath rest).1 := by
  intro hm
  have := List.mem_takeWhile_imp hm
  simp [netlocPred] at this

theorem path_head (rest : List Char) :
    (urlparseNetlocPath rest).2 = [] ∨ (urlparseNetlocPath rest).2.head? = some '/' := by
  have hunf : (urlparseNetlocPath rest).2
      = splitparams (((rest.dropWhile netlocPred).takeWhile
          (fun c => c ≠ '#')).takeWhile (fun c => c ≠ '?')) := by
    simp only [urlparseNetlocPath, drop_length_takeWhile]
  rw [hunf]
  rcases hr : rest.dropWhile netlocPred with _ | ⟨h0, t⟩
  · left; simp [splitparams]
  · have hh : netlocPred h0 = false := by
      apply dropWhile_head?_not netlocPred rest
      rw [hr]; rfl
    have h3 : h0 = '/' ∨ h0 = '?' ∨ h0 = '#' := by
      by_contra hc
      push_neg at hc
      simp [netlocPred, hc.1, hc.2.1, hc.2.2] at hh
    rcases h3 with h3 | h3 | h3
    · subst h3
      have hp0 : (('/' :: t).takeWhile (fun c => c ≠ '#')).takeWhile (fun c => c ≠ '?')
          = '/' :: ((t.takeWhile (fun c => c ≠ '#')).takeWhile (fun c => c ≠ '?')) := by
        simp [List.takeWhile_cons]
      rw [hp0]
      rcases hsp : splitparams ('/' :: ((t.takeWhile (fun c => c ≠ '#')).takeWhile
          (fun c => c ≠ '?'))) with _ | ⟨s0, st⟩
      · left; rfl
      · right
        have hpref := splitparams_isPrefix ('/' :: ((t.takeWhile (fun c => c ≠ '#')).takeWhile
          (fun c => c ≠ '?')))
        rw [hsp] at hpref
        obtain ⟨tl, htl⟩ := hpref
        simp only [List.cons_append] at htl
        have hs0 : s0 = '/' := by
          injection htl
        simp [hs0]
    · subst h3; left; simp [List.takeWhile_cons, splitparams]
    · subst h3; left; simp [List.takeWhile_cons, splitparams]

theorem not_prefix_append_of_head (pre base suf : List Char)
    (hdot : '.' ∉ pre) (hsuf : suf.head? = some '.')
    (h : ¬ pre <+: base) : ¬ pre <+: (base ++ suf) := by
  intro hp
  rcases le_or_lt pre.length base.length with hle | hlt
  · exact h (List.prefix_of_prefix_length_le hp (List.prefix_append base suf) hle)
  · have hbp : base <+: pre :=
      List.prefix_of_prefix_length_le (List.prefix_append base suf) hp (Nat.le_of_lt hlt)
    obtain ⟨u, hu⟩ := hbp
    have hulen : u ≠ [] := by
      intro he
      rw [he, List.append_nil] at hu
      rw [hu] at hlt
      exact lt_irrefl _ hlt
    have : pre.drop base.length = u := by
      rw [← hu, List.drop_left]
    obtain ⟨t, ht⟩ := hp
    have hut : u ++ t = suf := by
      rw [← hu, List.append_assoc] at ht
      exact List.append_cancel_left ht
    have huh : u.head? = some '.' := by
      rcases u with _ | ⟨u0, ur⟩
      · exact absurd rfl hulen
      · rw [← hut] at hsuf
        simpa using hsuf
    have : '.' ∈ u := by
      rcases u with _ | ⟨u0, ur⟩
      · exact absurd rfl hulen
      · simp only [List.head?_cons, Option.some.injEq] at huh
        simp [huh]
    exact hdot (List.IsSuffix.subset ⟨base, hu⟩ this)

/-! ## Properties of `_normalize_domain` (claim C10) -/

theorem netloc_or_path_not_scheme (rest : List Char) (pre : List Char)
    (hslash : '/' ∈ pre) (hh : pre.head? = some 'h') :
    ¬ pre <+: (if (urlparseNetlocPath rest).1 ≠ [] then (urlparseNetlocPath rest).1
      else (urlparseNetlocPath rest).2) := by
  by_cases hn : (urlparseNetlocPath rest).1 ≠ []
  · rw [if_pos hn]
    intro hp
    exact netloc_no_slash rest (hp.subset hslash)
  · rw [if_neg hn]
    rcases path_head rest with hpe | hph
    · rw [hpe]
      intro hp
      have : pre = [] := List.prefix_nil.mp hp
      rw [this] at hh
      simp at hh
    · intro hp
      rcases pre with _ | ⟨p0, pt⟩
      · simp at hh
      · obtain ⟨t, ht⟩ := hp
        simp only [List.head?_cons, Option.some.injEq] at hh
        rw [← ht] at hph
        simp only [List.cons_append, List.head?_cons, Option.some.injEq] at hph
        rw [hh] at hph
        exact absurd hph (by decide)

theorem schemeStripped_not_scheme (d : List Char) (pre : List Char)
    (hpre : pre = HTTP_PREFIX ∨ pre = HTTPS_PREFIX) :
    ¬ pre <+: schemeStripped d := by
  have hslash : '/' ∈ pre := by rcases hpre with h | h <;> subst h <;> decide
  have hh : pre.head? = some 'h' := by rcases hpre with h | h <;> subst h <;> decide
  by_cases h1 : HTTP_PREFIX.isPrefixOf d
  · simp only [schemeStripped, h1, if_pos]
    exact netloc_or_path_not_scheme _ pre hslash hh
  · by_cases h2 : HTTPS_PREFIX.isPrefixOf d
    · simp only [schemeStripped, h1, h2, if_pos, Bool.false_eq_true, if_false]
      exact netloc_or_path_not_scheme _ pre hslash hh
    · simp only [schemeStripped, h1, h2, Bool.false_eq_true, if_false]
      intro hp
      rcases hpre with h | h <;> subst h
      · exact h1 (isPrefixOfIff _ _ |>.mpr hp)
      · exact h2 (isPrefixOfIff _ _ |>.mpr hp)

theorem ensureSuffix_not_pre (l pre : List Char) (hdot : '.' ∉ pre)
    (h : ¬ pre <+: l) : ¬ pre <+: ensureSuffix l := by
  unfold ensureSuffix
  by_cases h1 : SHOPIFY_SUFFIX.isSuffixOf l
  · rw [if_pos h1]; exact h
  · rw [if_neg h1]
    by_cases h2 : '.' ∈ l
    · rw [if_pos h2]; exact h
    · rw [if_neg h2]
      exact not_prefix_append_of_head pre l SHOPIFY_SUFFIX hdot (by decide) h

theorem ensureSuffix_getLast (l : List Char) (h : l.getLast? ≠ some '/') :
    (ensureSuffix l).getLast? ≠ some '/' := by
  unfold ensureSuffix
  by_cases h1 : SHOPIFY_SUFFIX.isSuffixOf l
  · rw [if_pos h1]; exact h
  · rw [if_neg h1]
    by_cases h2 : '.' ∈ l
    · rw [if_pos h2]; exact h
    · rw [if_neg h2]
      rw [List.getLast?_append_of_ne_nil _ (by decide)]
      decide

theorem ensureSuffix_dot (l : List Char) : '.' ∈ ensureSuffix l := by
  unfold ensureSuffix
  by_cases h1 : SHOPIFY_SUFFIX.isSuffixOf l
  · rw [if_pos h1]
    exact (List.isSuffixOf_iff_suffix.mp h1).subset (by decide)
  · rw [if_neg h1]
    by_cases h2 : '.' ∈ l
    · rw [if_pos h2]; exact h2
    · rw [if_neg h2]
      exact List.mem_append_right _ (by decide)

theorem ensureSuffix_eq_self (l : List Char) (hd : '.' ∈ l) : ensureSuffix l = l := by
  unfold ensureSuffix
  by_cases h1 : SHOPIFY_SUFFIX.isSuffixOf l
  · rw [if_pos h1]
  · rw [if_neg h1, if_pos hd]

theorem normalizeDomain_not_http (d : List Char) : ¬ HTTP_PREFIX <+: normalizeDomain d := by
  unfold normalizeDomain
  apply ensureSuffix_not_pre _ _ (by decide)
  intro hp
  exact schemeStripped_not_scheme d _ (Or.inl rfl) (hp.trans (rstripSlash_isPrefix _))

theorem normalizeDomain_not_https (d : List Char) : ¬ HTTPS_PREFIX <+: normalizeDomain d := by
  unfold normalizeDomain
  apply ensureSuffix_not_pre _ _ (by decide)
  intro hp
  exact schemeStripped_not_scheme d _ (Or.inr rfl) (hp.trans (rstripSlash_isPrefix _))

theorem normalizeDomain_getLast (d : List Char) :
    (normalizeDomain d).getLast? ≠ some '/' :=
  ensureSuffix_getLast _ (rstripSlash_getLast? _)

theorem normalizeDomain_dot (d : List Char) : '.' ∈ normalizeDomain d :=
  ensureSuffix_dot _

theorem normalizeDomain_idem (d : List Char) :
    normalizeDomain (normalizeDomain d) = normalizeDomain d := by
  have h1 := normalizeDomain_not_http d
  have h2 := normalizeDomain_not_https d
  have h3 := normalizeDomain_getLast d
  have h4 := normalizeDomain_dot d
  have hs : schemeStripped (normalizeDomain d) = normalizeDomain d := by
    unfold schemeStripped
    rw [if_neg (fun hb => h1 (isPrefixOfIff _ _ |>.mp hb)),
      if_neg (fun hb => h2 (isPrefixOfIff _ _ |>.mp hb))]
  conv_lhs => rw [normalizeDomain]
  rw [hs, rstripSlash_eq_self _ h3, ensureSuffix_eq_self _ h4]

/-- C10: `_normalize_domain` is idempotent, and its output never starts
with `http://` or `https://` and never ends with a slash, so the base
URL built from it is canonical however the caller wrote the shop
domain. -/
theorem c10_normalize_domain_idempotent_canonical (d : List Char) :
    normalizeDomain (normalizeDomain d) = normalizeDomain d ∧
    ¬ HTTP_PREFIX <+: normalizeDomain d ∧
    ¬ HTTPS_PREFIX <+: normalizeDomain d ∧
    (normalizeDomain d).getLast? ≠ some '/' :=
  ⟨normalizeDomain_idem d, normalizeDomain_not_http d,
    normalizeDomain_not_https d, normalizeDomain_getLast d⟩

/-- Witness for C10 at a concrete input. -/
theorem c10_normalize_domain_idempotent_canonical_witness :
    normalizeDomain (normalizeDomain "https://my-store/".toList)
        = normalizeDomain "https://my-store/".toList ∧
    ¬ HTTP_PREFIX <+: normalizeDomain "https://my-store/".toList ∧
    ¬ HTTPS_PREFIX <+: normalizeDomain "https://my-store/".toList ∧
    (normalizeDomain "https://my-store/".toList).getLast? ≠ some '/' :=
  c10_normalize_domain_idempotent_canonical "https://my-store/".toList

end Shopify

namespace Shopify

example : normalizeDomainStr "my-store.myshopify.com" = "my-store.myshopify.com" := by decide

example : normalizeDomainStr "https://my-store.myshopify.com/" = "my-store.myshopify.com" := by decide

example : normalizeDomainStr "http://shop" = "shop.myshopify.com" := by decide

example : normalizeDomainStr "shop/" = "shop.myshopify.com" := by decide

example : normalizeDomainStr "http://my-store.myshopify.com/admin" = "my-store.myshopify.com" := by decide

/-! ## `ShopifyAdminClient._request`: retry executor

One `HttpEvent` is consumed per physical HTTP attempt.  `_request` is a
`for attempt in range(MAX_RETRIES)` loop; on exit it raises
`last_error or ShopifyAPIError("Request failed after all retries")`.
Delays passed to `asyncio.sleep` are recorded in order in `sleeps`;
`consumed` counts physical attempts. -/

/-- The exception classes raised by `_request` (`ShopifyAPIError`,
`ShopifyAuthError`, `ShopifyNotFoundError`), with their message and
`status_code`. -/
inductive ShopifyError where
  | apiError (message : String) (status : Option Nat)
  | authError (message : String) (status : Nat)
  | notFoundError (message : String) (status : Nat)
  deriving DecidableEq

/-- One scripted outcome of a physical HTTP attempt: either a response
(with status, parsed `Retry-After` header, the `errors` field of the
JSON body if any, the body text, and an opaque token for the parsed JSON
payload), or an `httpx.TimeoutException` / `httpx.RequestError` whose
`str(e)` is the given message. -/
inductive HttpEvent where
  | response (status : Nat) (retryAfter : Option ℚ) (errors : Option String)
      (text : String) (payload : Nat)
  | timeout (message : String)
  | netError (message : String)
  deriving DecidableEq

/-- Result of `_request`: the returned JSON payload token (200/201), the
empty dict (204), a raised error, or `scriptEnded` when the script has
fewer events than the loop would consume (the model cannot say more). -/
inductive ReqResult where
  | ok (payload : Nat)
  | okNoContent
  | err (e : ShopifyError)
  | scriptEnded
  deriving DecidableEq

def MAX_RETRIES : Nat := 3

def RETRY_BACKOFF_BASE : ℚ := 1

def RETRY_BACKOFF_MAX : ℚ := 30

/-- The delay `min(RETRY_BACKOFF_BASE * (2 ** attempt), RETRY_BACKOFF_MAX)`
(written as an `if` so that it evaluates in the kernel; see
`backoff_eq_min`). -/
def backoff (attempt : Nat) : ℚ :=
  if RETRY_BACKOFF_BASE * 2 ^ attempt ≤ RETRY_BACKOFF_MAX then
    RETRY_BACKOFF_BASE * 2 ^ attempt
  else RETRY_BACKOFF_MAX

theorem backoff_eq_min (attempt : Nat) :
    backoff attempt = min (RETRY_BACKOFF_BASE * 2 ^ attempt) RETRY_BACKOFF_MAX := by
  unfold backoff
  split
  · exact (min_eq_left ‹_›).symm
  · exact (min_eq_right (le_of_not_le ‹_›)).symm

/-- The message of the clearer error raised when the body mentions
`Unavailable Shop`. -/
def unavailableShopMessage (shopDomain : String) : String :=
  "Unavailable Shop: The shop \x27" ++ shopDomain ++
  "\x27 cannot be accessed. Please verify: 1) The shop domain is correct " ++
  "(e.g., \x27your-store.myshopify.com\x27), 2) The access token is valid " ++
  "and belongs to this shop, 3) The shop is active and not paused/closed."

structure ReqOut where
  result : ReqResult
  sleeps : List ℚ
  consumed : Nat
  deriving DecidableEq

/-- The body of `_request`, entered at a given 0-indexed `attempt` and
accumulated `last_error`, consuming one scripted event per attempt. -/
def requestGo (shopDomain endpoint : String) (attempt : Nat)
    (lastError : Option ShopifyError) : List HttpEvent → ReqOut
  | [] =>
    if MAX_RETRIES ≤ attempt then
      ⟨.err (lastError.getD (.apiError "Request failed after all retries" none)), [], 0⟩
    else ⟨.scriptEnded, [], 0⟩
  | ev :: rest =>
    if MAX_RETRIES ≤ attempt then
      ⟨.err (lastError.getD (.apiError "Request failed after all retries" none)), [], 0⟩
    else
      match ev with
      | .response status retryAfter errors text payload =>
        if status = 200 then ⟨.ok payload, [], 1⟩
        else if status = 201 then ⟨.ok payload, [], 1⟩
        else if status = 204 then ⟨.okNoContent, [], 1⟩
        else if status = 429 then
          let retry_after := retryAfter.getD 2
          let o := requestGo shopDomain endpoint (attempt + 1) lastError rest
          ⟨o.result, retry_after :: o.sleeps, o.consumed + 1⟩
        else if status = 401 then
          ⟨.err (.authError "Invalid or expired access token" 401), [], 1⟩
        else if status = 403 then
          ⟨.err (.authError ("Access forbidden: " ++ errors.getD "Insufficient permissions")
            403), [], 1⟩
        else if status = 404 then
          ⟨.err (.notFoundError ("Resource not found: " ++ endpoint) 404), [], 1⟩
        else if 500 ≤ status then
          let o := requestGo shopDomain endpoint (attempt + 1) lastError rest
          ⟨o.result, backoff attempt :: o.sleeps, o.consumed + 1⟩
        else
          let errs := errors.getD text
          let msg :=
            if containsSub "Unavailable Shop".toList errs.toList then
              unavailableShopMessage shopDomain
            else "API error: " ++ errs
          ⟨.err (.apiError msg (some status)), [], 1⟩
      | .timeout m =>
        let o := requestGo shopDomain endpoint (attempt + 1)
          (some (.apiError ("Request timeout: " ++ m) none)) rest
        ⟨o.result, backoff attempt :: o.sleeps, o.consumed + 1⟩
      | .netError m =>
        let o := requestGo shopDomain endpoint (attempt + 1)
          (some (.apiError ("Request error: " ++ m) none)) rest
        ⟨o.result, backoff attempt :: o.sleeps, o.consumed + 1⟩

/-- Model of `_request` as called from outside: attempt 0, no recorded error. -/
def request (shopDomain endpoint : String) (script : List HttpEvent) : ReqOut :=
  requestGo shopDomain endpoint 0 none script

/-- A 429 response carrying no `Retry-After` header. -/
def ev429 : HttpEvent := .response 429 none none "" 0

/-- A 500 response. -/
def ev500 : HttpEvent := .response 500 none none "" 0

/-- A 200 response with the given payload token. -/
def ev200 (p : Nat) : HttpEvent := .response 200 none none "" p

example :
    request "s.myshopify.com" "/shop.json" [ev200 7] = ⟨.ok 7, [], 1⟩ := rfl

example :
    request "s.myshopify.com" "/shop.json" [ev429, ev200 7] = ⟨.ok 7, [2], 2⟩ := rfl

example :
    request "s.myshopify.com" "/shop.json" [ev500, ev500, ev200 7]
      = ⟨.ok 7, [backoff 0, backoff 1], 3⟩ := rfl

example : backoff 0 = 1 ∧ backoff 1 = 2 ∧ backoff 2 = 4 ∧ backoff 5 = 30 := by
  norm_num [backoff, RETRY_BACKOFF_BASE, RETRY_BACKOFF_MAX]

/-! ## Claims C1, C2, C3 about `_request` -/

/-- The generic error raised when the loop exits with `last_error is None`. -/
def genericExhaustionError : ShopifyError :=
  .apiError "Request failed after all retries" none

theorem requestGo_429_step (sd ep : String) (a : Nat) (last : Option ShopifyError)
    (ra : Option ℚ) (er : Option String) (tx : String) (p : Nat)
    (rest : List HttpEvent) (ha : a < MAX_RETRIES) :
    requestGo sd ep a last (.response 429 ra er tx p :: rest)
      = ⟨(requestGo sd ep (a + 1) last rest).result,
         ra.getD 2 :: (requestGo sd ep (a + 1) last rest).sleeps,
         (requestGo sd ep (a + 1) last rest).consumed + 1⟩ := by
  have hga : ¬ MAX_RETRIES ≤ a := by omega
  simp [requestGo, hga]

theorem requestGo_consumed_le (sd ep : String) :
    ∀ (script : List HttpEvent) (a : Nat) (last : Option ShopifyError),
      (requestGo sd ep a last script).consumed ≤ MAX_RETRIES - a
  | [], a, last => by
    simp only [requestGo]
    split <;> simp
  | ev :: rest, a, last => by
    by_cases hga : MAX_RETRIES ≤ a
    · simp [requestGo, if_pos hga]
    · have hlt : a < MAX_RETRIES := lt_of_not_le hga
      have hM : MAX_RETRIES = 3 := rfl
      have ih1 := requestGo_consumed_le sd ep rest (a + 1) last
      have ih2 : ∀ e : ShopifyError,
          (requestGo sd ep (a + 1) (some e) rest).consumed ≤ MAX_RETRIES - (a + 1) :=
        fun e => requestGo_consumed_le sd ep rest (a + 1) (some e)
      cases ev with
      | response st ra er tx p =>
        simp only [requestGo, if_neg hga]
        split_ifs <;> dsimp only <;> omega
      | timeout m =>
        simp only [requestGo, if_neg hga]
        have := ih2 (.apiError ("Request timeout: " ++ m) none)
        omega
      | netError m =>
        simp only [requestGo, if_neg hga]
        have := ih2 (.apiError ("Request error: " ++ m) none)
        omega

theorem request_under_cap_429 (sd ep : String) (p : Nat) (ra : ℚ) :
    request sd ep [.response 429 (some ra) none "" 0,
      .response 429 (some ra) none "" 0, ev200 p]
      = ⟨.ok p, [(some ra).getD 2, (some ra).getD 2], 3⟩ := rfl

theorem request_429_exhausts_cap (sd ep : String) (p : Nat) :
    request sd ep (List.replicate 10 ev429 ++ [ev200 p])
      = ⟨.err genericExhaustionError, [2, 2, 2], 3⟩ := rfl

theorem request_500_exhausts_cap (sd ep : String) :
    request sd ep (List.replicate 10 ev500)
      = ⟨.err genericExhaustionError, [backoff 0, backoff 1, backoff 2], 3⟩ := rfl

/-- C1 counterexample: with 10 consecutive 429s followed by a 200, the
run does not return the 200 body — the 429 `continue` still advances
the `for attempt in range(MAX_RETRIES)` loop, so after 3 attempts the
loop exits and raises the generic error (`last_error` is `None`). -/
theorem c1_counterexample_429_not_uncounted :
    (request "s.myshopify.com" "/products.json"
        (List.replicate 10 ev429 ++ [ev200 77])).result
      = .err genericExhaustionError := rfl

/-- C1 (amended): a 429 is retried after sleeping the `Retry-After`
delay (default 2 s), but the retry IS counted against the 3-attempt
cap: fewer than 3 consecutive 429s followed by a 200 still succeed,
while a run of 10 consecutive 429s followed by a 200 exhausts the cap
and raises the generic `ShopifyAPIError` instead of returning the 200
body; a run of 10 consecutive 500s likewise terminates in that error
after the cap. -/
theorem c1_rate_limit_retry_counted_against_cap :
    (∀ (sd ep : String) (a : Nat) (last : Option ShopifyError) (ra : Option ℚ)
        (er : Option String) (tx : String) (p : Nat) (rest : List HttpEvent),
      a < MAX_RETRIES →
        requestGo sd ep a last (.response 429 ra er tx p :: rest)
          = ⟨(requestGo sd ep (a + 1) last rest).result,
             ra.getD 2 :: (requestGo sd ep (a + 1) last rest).sleeps,
             (requestGo sd ep (a + 1) last rest).consumed + 1⟩) ∧
    (∀ (sd ep : String) (p : Nat) (ra : ℚ),
      request sd ep [.response 429 (some ra) none "" 0,
        .response 429 (some ra) none "" 0, ev200 p]
        = ⟨.ok p, [(some ra).getD 2, (some ra).getD 2], 3⟩) ∧
    (∀ (sd ep : String) (p : Nat),
      request sd ep (List.replicate 10 ev429 ++ [ev200 p])
        = ⟨.err genericExhaustionError, [2, 2, 2], 3⟩) ∧
    (∀ sd ep : String,
      request sd ep (List.replicate 10 ev500)
        = ⟨.err genericExhaustionError, [backoff 0, backoff 1, backoff 2], 3⟩) :=
  ⟨requestGo_429_step, request_under_cap_429, request_429_exhausts_cap,
    request_500_exhausts_cap⟩

/-- Witness for C1 (amended) at concrete inputs. -/
theorem c1_rate_limit_retry_counted_against_cap_witness :
    requestGo "s.myshopify.com" "/p.json" 0 none
        (.response 429 (some 5) none "" 0 :: [ev200 7])
      = ⟨(requestGo "s.myshopify.com" "/p.json" 1 none [ev200 7]).result,
         (some (5 : ℚ)).getD 2
           :: (requestGo "s.myshopify.com" "/p.json" 1 none [ev200 7]).sleeps,
         (requestGo "s.myshopify.com" "/p.json" 1 none [ev200 7]).consumed + 1⟩ :=
  c1_rate_limit_retry_counted_against_cap.1 "s.myshopify.com" "/p.json" 0 none
    (some 5) none "" 0 [ev200 7] (by norm_num [MAX_RETRIES])

/-- C2 counterexample: a run of 10 consecutive 500s raises the generic
`ShopifyAPIError("Request failed after all retries")` (status `None`),
not an error describing the last observed 500 — the 5xx branch never
assigns `last_error`. -/
theorem c2_counterexample_5xx_generic_error :
    (request "s.myshopify.com" "/products.json" (List.replicate 10 ev500)).result
      = .err genericExhaustionError := rfl

theorem request_timeout_surfaces_last (sd ep m1 m2 m3 : String) :
    request sd ep [.timeout m1, .netError m2, .timeout m3]
      = ⟨.err (.apiError ("Request timeout: " ++ m3) none),
         [backoff 0, backoff 1, backoff 2], 3⟩ := rfl

theorem request_netError_surfaces_last (sd ep m1 m2 m3 : String) :
    request sd ep [.netError m1, .timeout m2, .netError m3]
      = ⟨.err (.apiError ("Request error: " ++ m3) none),
         [backoff 0, backoff 1, backoff 2], 3⟩ := rfl

/-- C2 (amended): `_request` makes at most `MAX_RETRIES = 3` physical
attempts, sleeping the capped exponential backoff between transient
failures; after exhaustion it raises the last network/timeout error
when one was recorded, but a run whose failures are all 5xx raises the
generic `ShopifyAPIError("Request failed after all retries")` because
the 5xx branch does not record `last_error`. -/
theorem c2_retry_cap_and_last_error :
    (∀ (sd ep : String) (script : List HttpEvent),
      (request sd ep script).consumed ≤ MAX_RETRIES) ∧
    (∀ sd ep m1 m2 m3 : String,
      request sd ep [.timeout m1, .netError m2, .timeout m3]
        = ⟨.err (.apiError ("Request timeout: " ++ m3) none),
           [backoff 0, backoff 1, backoff 2], 3⟩) ∧
    (∀ sd ep m1 m2 m3 : String,
      request sd ep [.netError m1, .timeout m2, .netError m3]
        = ⟨.err (.apiError ("Request error: " ++ m3) none),
           [backoff 0, backoff 1, backoff 2], 3⟩) ∧
    (∀ sd ep : String,
      (request sd ep (List.replicate 10 ev500)).result
        = .err genericExhaustionError) :=
  ⟨fun sd ep script => by
      have := requestGo_consumed_le sd ep script 0 none
      simpa [request] using this,
    request_timeout_surfaces_last, request_netError_surfaces_last,
    fun sd ep => rfl⟩

/-- Witness for C2 (amended) at concrete inputs. -/
theorem c2_retry_cap_and_last_error_witness :
    (request "s.myshopify.com" "/p.json" (List.replicate 7 ev429)).consumed
      ≤ MAX_RETRIES :=
  c2_retry_cap_and_last_error.1 "s.myshopify.com" "/p.json" (List.replicate 7 ev429)

theorem backoff_formula (k : Nat) : backoff k = min ((1 : ℚ) * 2 ^ k) 30 :=
  backoff_eq_min k

theorem backoff_monotone (j k : Nat) (h : j ≤ k) : backoff j ≤ backoff k := by
  rw [backoff_eq_min, backoff_eq_min]
  refine min_le_min ?_ le_rfl
  have h2 : (2 : ℚ) ^ j ≤ 2 ^ k := pow_le_pow_right₀ one_le_two h
  have hb : (0 : ℚ) ≤ RETRY_BACKOFF_BASE := by norm_num [RETRY_BACKOFF_BASE]
  exact mul_le_mul_of_nonneg_left h2 hb

theorem requestGo_5xx_sleep (sd ep : String) (a : Nat) (last : Option ShopifyError)
    (st : Nat) (ra : Option ℚ) (er : Option String) (tx : String) (p : Nat)
    (rest : List HttpEvent) (ha : a < MAX_RETRIES) (h5 : 500 ≤ st) :
    (requestGo sd ep a last (.response st ra er tx p :: rest)).sleeps.head?
      = some (backoff a) := by
  have hga : ¬ MAX_RETRIES ≤ a := by omega
  simp only [requestGo, if_neg hga]
  rw [if_neg (by omega : ¬ st = 200), if_neg (by omega : ¬ st = 201),
    if_neg (by omega : ¬ st = 204), if_neg (by omega : ¬ st = 429),
    if_neg (by omega : ¬ st = 401), if_neg (by omega : ¬ st = 403),
    if_neg (by omega : ¬ st = 404), if_pos h5]
  rfl

theorem requestGo_timeout_sleep (sd ep : String) (a : Nat)
    (last : Option ShopifyError) (m : String) (rest : List HttpEvent)
    (ha : a < MAX_RETRIES) :
    (requestGo sd ep a last (.timeout m :: rest)).sleeps.head?
      = some (backoff a) := by
  have hga : ¬ MAX_RETRIES ≤ a := by omega
  simp [requestGo, if_neg hga]

theorem requestGo_netError_sleep (sd ep : String) (a : Nat)
    (last : Option ShopifyError) (m : String) (rest : List HttpEvent)
    (ha : a < MAX_RETRIES) :
    (requestGo sd ep a last (.netError m :: rest)).sleeps.head?
      = some (backoff a) := by
  have hga : ¬ MAX_RETRIES ≤ a := by omega
  simp [requestGo, if_neg hga]

/-- C3: the backoff delay slept before retrying attempt `k` (0-indexed)
after a 5xx, timeout or connection error equals
`min(1.0 * 2 ** k, 30.0)`, and it is non-decreasing in `k`. -/
theorem c3_backoff_formula_monotone :
    (∀ k : Nat, backoff k = min ((1 : ℚ) * 2 ^ k) 30) ∧
    (∀ j k : Nat, j ≤ k → backoff j ≤ backoff k) ∧
    (∀ (sd ep : String) (a : Nat) (last : Option ShopifyError) (st : Nat)
        (ra : Option ℚ) (er : Option String) (tx : String) (p : Nat)
        (rest : List HttpEvent), a < MAX_RETRIES → 500 ≤ st →
      (requestGo sd ep a last (.response st ra er tx p :: rest)).sleeps.head?
        = some (backoff a)) ∧
    (∀ (sd ep : String) (a : Nat) (last : Option ShopifyError) (m : String)
        (rest : List HttpEvent), a < MAX_RETRIES →
      (requestGo sd ep a last (.timeout m :: rest)).sleeps.head?
        = some (backoff a)) ∧
    (∀ (sd ep : String) (a : Nat) (last : Option ShopifyError) (m : String)
        (rest : List HttpEvent), a < MAX_RETRIES →
      (requestGo sd ep a last (.netError m :: rest)).sleeps.head?
        = some (backoff a)) :=
  ⟨backoff_formula, backoff_monotone,
    fun sd ep a last st ra er tx p rest ha h5 =>
      requestGo_5xx_sleep sd ep a last st ra er tx p rest ha h5,
    fun sd ep a last m rest ha => requestGo_timeout_sleep sd ep a last m rest ha,
    fun sd ep a last m rest ha => requestGo_netError_sleep sd ep a last m rest ha⟩

/-! ## `_parse_link_header` and `_paginate` -/

def REL_NEXT : List Char := "rel=\"next\"".toList

def pageInfoKey : List Char := "page_info".toList

def limitKey : List Char := "limit".toList

/-- The `for part in link_header.split(",")` loop of
`_parse_link_header`: the first part containing `rel="next"` whose URL
query has a `page_info` parameter yields that parameter. -/
def parseLinkHeaderGo : List (List Char) → Option (List Char)
  | [] => none
  | part :: rest =>
    if containsSub REL_NEXT part then
      let url_part := pyStripSet ['<', '>'] (pyStrip ((splitOnChar ';' part).headD []))
      match firstQsValue pageInfoKey (urlparseQuery url_part) with
      | some v => some v
      | none => parseLinkHeaderGo rest
    else parseLinkHeaderGo rest

/-- Model of `ShopifyAdminClient._parse_link_header`: `None` for an absent/empty
header, else the `page_info` of the first `rel="next"` part. -/
def parseLinkHeader (h : List Char) : Option (List Char) :=
  if h = [] then none
  else parseLinkHeaderGo (splitOnChar ',' h)

example :
    parseLinkHeader ("<https://t.myshopify.com/admin/api/2025-10/products.json?" ++
        "page_info=cTWO&limit=250>; rel=\"next\"").toList
      = some "cTWO".toList := by decide

example : parseLinkHeader [] = none := by decide

/-- A query-parameter value: `page_info` cursors are strings, `limit`
is an integer. -/
inductive PVal where
  | str (s : List Char)
  | nat (n : Nat)
  deriving DecidableEq

/-- Python `params[k] = v` on a dict modelled as an insertion-ordered
association list. -/
def setParam (ps : List (List Char × PVal)) (k : List Char) (v : PVal) :
    List (List Char × PVal) :=
  if ps.any (fun p => p.1 = k) then ps.map (fun p => if p.1 = k then (k, v) else p)
  else ps ++ [(k, v)]

/-- Python `params[k]` as an `Option`. -/
def getParam (ps : List (List Char × PVal)) (k : List Char) : Option PVal :=
  (ps.find? (fun p => p.1 = k)).map (fun p => p.2)

/-- One scripted page response for `_paginate`: HTTP status, the
`result_key` item array of the JSON body, and the `Link` header
(`headers.get("Link", "")`, so `[]` when absent). -/
structure Page where
  status : Nat
  items : List Nat
  link : List Char
  deriving DecidableEq

/-- Outcome of `_paginate`: the returned `all_items` (or `none` when
the script ran out while the loop wanted another page, which the model
cannot answer), and the query parameters of each GET issued, in
order. -/
structure PagOut where
  result : Option (List Nat)
  reqs : List (List (List Char × PVal))
  deriving DecidableEq

/-- The `while True` loop of `_paginate`.  Each iteration issues one
GET with the current `params` and consumes one scripted page; a
non-200 status breaks with the items collected so far; otherwise the
items are appended, and the loop ends when the `Link` header has no
`rel="next"` cursor or the page cap is reached, else it repeats with
parameters `page_info = cursor` and `limit = params["limit"]` only. -/
def paginateGo (script : List Page) (params : List (List Char × PVal))
    (pageCount : Nat) (maxPages : Option Nat) (allItems : List Nat) : PagOut :=
  match script with
  | [] => ⟨none, []⟩
  | pg :: rest =>
    if pg.status ≠ 200 then ⟨some allItems, [params]⟩
    else
      let allItems2 := allItems ++ pg.items
      let pageCount2 := pageCount + 1
      match parseLinkHeader pg.link with
      | none => ⟨some allItems2, [params]⟩
      | some cursor =>
        if maxPages.getD 0 ≠ 0 ∧ maxPages.getD 0 ≤ pageCount2 then
          ⟨some allItems2, [params]⟩
        else
          let limitVal := (getParam params limitKey).getD (.nat 0)
          let o := paginateGo rest [(pageInfoKey, .str cursor), (limitKey, limitVal)]
            pageCount2 maxPages allItems2
          ⟨o.result, params :: o.reqs⟩

/-- Model of `ShopifyAdminClient._paginate`: set `params["limit"] =
min(limit, 250)` and walk the pages.  (`paginateGo` reads `limit` back
with a default of `0`; the entry point always sets it first, so the
default is never used.) -/
def paginate (script : List Page) (params : List (List Char × PVal))
    (limit : Nat) (maxPages : Option Nat) : PagOut :=
  paginateGo script (setParam params limitKey (.nat (min limit 250))) 0 maxPages []

/-! ## Claims C4, C5, C8 about `_paginate` -/

/-- A `Link` header with only a `rel="next"` part. -/
def linkNext (c : String) : List Char :=
  ("<https://t.myshopify.com/admin/api/2025-10/products.json?page_info="
    ++ c ++ "&limit=250>; rel=\"next\"").toList

/-- A `Link` header with a `rel="previous"` part followed by a
`rel="next"` part. -/
def linkPrevNext (pc nc : String) : List Char :=
  ("<https://t.myshopify.com/admin/api/2025-10/products.json?page_info="
    ++ pc ++ "&limit=250>; rel=\"previous\", "
    ++ "<https://t.myshopify.com/admin/api/2025-10/products.json?page_info="
    ++ nc ++ "&limit=250>; rel=\"next\"").toList

def page1 : Page := ⟨200, List.range 250, linkNext "cTWO"⟩

def page2 : Page := ⟨200, (List.range 250).map (fun n => n + 250), linkPrevNext "cONE" "cTHREE"⟩

def page3 : Page := ⟨200, (List.range 17).map (fun n => n + 500), []⟩

def c4Script : List Page := [page1, page2, page3]

theorem paginateGo_stop_no_cursor (pg : Page) (rest : List Page)
    (params : List (List Char × PVal)) (pc : Nat) (mp : Option Nat)
    (acc : List Nat) (h200 : pg.status = 200)
    (hl : parseLinkHeader pg.link = none) :
    paginateGo (pg :: rest) params pc mp acc = ⟨some (acc ++ pg.items), [params]⟩ := by
  simp [paginateGo, h200, hl]

theorem paginateGo_stop_cap (pg : Page) (rest : List Page)
    (params : List (List Char × PVal)) (pc : Nat) (m : Nat)
    (acc : List Nat) (c : List Char) (h200 : pg.status = 200)
    (hl : parseLinkHeader pg.link = some c) (hm0 : m ≠ 0) (hle : m ≤ pc + 1) :
    paginateGo (pg :: rest) params pc (some m) acc
      = ⟨some (acc ++ pg.items), [params]⟩ := by
  simp [paginateGo, h200, hl, hm0, hle]

theorem paginateGo_continue (pg : Page) (rest : List Page)
    (params : List (List Char × PVal)) (pc : Nat) (mp : Option Nat)
    (acc : List Nat) (c : List Char) (h200 : pg.status = 200)
    (hl : parseLinkHeader pg.link = some c)
    (hcap : ¬ (mp.getD 0 ≠ 0 ∧ mp.getD 0 ≤ pc + 1)) :
    paginateGo (pg :: rest) params pc mp acc
      = ⟨(paginateGo rest [(pageInfoKey, .str c),
            (limitKey, (getParam params limitKey).getD (.nat 0))]
            (pc + 1) mp (acc ++ pg.items)).result,
         params :: (paginateGo rest [(pageInfoKey, .str c),
            (limitKey, (getParam params limitKey).getD (.nat 0))]
            (pc + 1) mp (acc ++ pg.items)).reqs⟩ := by
  simp [paginateGo, h200, hl, hcap]

theorem paginateGo_break_non200 (pg : Page) (rest : List Page)
    (params : List (List Char × PVal)) (pc : Nat) (mp : Option Nat)
    (acc : List Nat) (h : ¬ pg.status = 200) :
    paginateGo (pg :: rest) params pc mp acc = ⟨some acc, [params]⟩ := by
  simp [paginateGo, h]

/-- C4: on pages of sizes `[250, 250, 17]` with `rel="next"` cursors on
the first two and none on the third, `_paginate` (no page cap) returns
exactly the 517 items in order via exactly 3 requests; in general (for
200 responses) the walk ends exactly when a page has no next cursor or
the page cap is reached, and a zero-item page carrying a cursor does
not end the loop. -/
theorem c4_paginate_three_pages_terminates :
    (paginate c4Script [] 250 none
      = ⟨some (List.range 517),
         [[(limitKey, .nat 250)],
          [(pageInfoKey, .str "cTWO".toList), (limitKey, .nat 250)],
          [(pageInfoKey, .str "cTHREE".toList), (limitKey, .nat 250)]]⟩) ∧
    (∀ (pg : Page) (rest : List Page) (params : List (List Char × PVal))
        (pc : Nat) (mp : Option Nat) (acc : List Nat),
      pg.status = 200 → parseLinkHeader pg.link = none →
        paginateGo (pg :: rest) params pc mp acc
          = ⟨some (acc ++ pg.items), [params]⟩) ∧
    (∀ (pg : Page) (rest : List Page) (params : List (List Char × PVal))
        (pc m : Nat) (acc : List Nat) (c : List Char),
      pg.status = 200 → parseLinkHeader pg.link = some c → m ≠ 0 → m ≤ pc + 1 →
        paginateGo (pg :: rest) params pc (some m) acc
          = ⟨some (acc ++ pg.items), [params]⟩) ∧
    (∀ (pg : Page) (rest : List Page) (params : List (List Char × PVal))
        (pc : Nat) (mp : Option Nat) (acc : List Nat) (c : List Char),
      pg.status = 200 → parseLinkHeader pg.link = some c →
      ¬ (mp.getD 0 ≠ 0 ∧ mp.getD 0 ≤ pc + 1) →
        (paginateGo (pg :: rest) params pc mp acc).reqs.length
          = 1 + (paginateGo rest [(pageInfoKey, .str c),
              (limitKey, (getParam params limitKey).getD (.nat 0))]
              (pc + 1) mp (acc ++ pg.items)).reqs.length) :=
  ⟨by set_option maxRecDepth 40000 in decide,
    paginateGo_stop_no_cursor,
    fun pg rest params pc m acc c h200 hl hm0 hle =>
      paginateGo_stop_cap pg rest params pc m acc c h200 hl hm0 hle,
    fun pg rest params pc mp acc c h200 hl hcap => by
      rw [paginateGo_continue pg rest params pc mp acc c h200 hl hcap]
      simp [Nat.add_comm]⟩

/-- Witness for C4 at concrete inputs (a zero-item page with a cursor
does not end the loop: two requests are issued). -/
theorem c4_paginate_three_pages_terminates_witness :
    (paginateGo [⟨200, [], linkNext "cA"⟩, ⟨200, [3], []⟩]
        [(limitKey, .nat 250)] 0 none []).reqs.length
      = 1 + (paginateGo [⟨200, [3], []⟩]
          [(pageInfoKey, .str "cA".toList),
           (limitKey, (getParam [(limitKey, .nat 250)] limitKey).getD (.nat 0))]
          1 none ([] ++ ([] : List Nat))).reqs.length :=
  c4_paginate_three_pages_terminates.2.2.2 ⟨200, [], linkNext "cA"⟩
    [⟨200, [3], []⟩] [(limitKey, .nat 250)] 0 none [] "cA".toList
    (by decide) (by decide) (by decide)

/-- A request whose query parameters are exactly the pair
`page_info = cursor`, `limit = limit`. -/
def cursorShaped (q : List (List Char × PVal)) : Prop :=
  ∃ c v, q = [(pageInfoKey, PVal.str c), (limitKey, v)]

theorem paginateGo_reqs_shape :
    ∀ (script : List Page) (params : List (List Char × PVal)) (pc : Nat)
      (mp : Option Nat) (acc : List Nat),
      ∀ q ∈ (paginateGo script params pc mp acc).reqs, q = params ∨ cursorShaped q
  | [], params, pc, mp, acc => by simp [paginateGo]
  | pg :: rest, params, pc, mp, acc => by
    intro q hq
    by_cases h200 : pg.status = 200
    · rcases hl : parseLinkHeader pg.link with _ | c
      · rw [paginateGo_stop_no_cursor pg rest params pc mp acc h200 hl] at hq
        simp at hq
        exact Or.inl hq
      · by_cases hcap : mp.getD 0 ≠ 0 ∧ mp.getD 0 ≤ pc + 1
        · rcases mp with _ | m
          · simp at hcap
          · simp only [Option.getD_some] at hcap
            rw [paginateGo_stop_cap pg rest params pc m acc c h200 hl
              hcap.1 hcap.2] at hq
            simp at hq
            exact Or.inl hq
        · rw [paginateGo_continue pg rest params pc mp acc c h200 hl hcap] at hq
          simp only [List.mem_cons] at hq
          rcases hq with hq | hq
          · exact Or.inl hq
          · rcases paginateGo_reqs_shape rest _ _ _ _ q hq with hq2 | hq2
            · exact Or.inr ⟨c, (getParam params limitKey).getD (.nat 0), hq2⟩
            · exact Or.inr hq2
    · rw [paginateGo_break_non200 pg rest params pc mp acc h200] at hq
      simp at hq
      exact Or.inl hq

/-- C5: once a cursor is in use, every subsequent request of a
`_paginate` walk carries exactly `page_info` and `limit` — no request
after the first mixes `page_info` with any of the original filter
parameters. -/
theorem c5_cursor_requests_only_page_info_limit :
    (∀ (script : List Page) (params : List (List Char × PVal)) (limit : Nat)
        (mp : Option Nat),
      ∀ q ∈ (paginate script params limit mp).reqs.drop 1, cursorShaped q) ∧
    (∀ q : List (List Char × PVal), cursorShaped q →
      q.map Prod.fst = [pageInfoKey, limitKey]) :=
  ⟨by
    intro script params limit mp q hq
    rcases script with _ | ⟨pg, rest⟩
    · simp [paginate, paginateGo] at hq
    · set params0 := setParam params limitKey (.nat (min limit 250)) with hp0
      by_cases h200 : pg.status = 200
      · rcases hl : parseLinkHeader pg.link with _ | c
        · rw [paginate, paginateGo_stop_no_cursor pg rest params0 0 mp [] h200 hl] at hq
          simp at hq
        · by_cases hcap : mp.getD 0 ≠ 0 ∧ mp.getD 0 ≤ 0 + 1
          · rcases mp with _ | m
            · simp at hcap
            · simp only [Option.getD_some] at hcap
              rw [paginate, paginateGo_stop_cap pg rest params0 0 m [] c h200 hl
                hcap.1 hcap.2] at hq
              simp at hq
          · rw [paginate, paginateGo_continue pg rest params0 0 mp [] c h200 hl hcap] at hq
            simp only [List.drop_succ_cons, List.drop_zero] at hq
            rcases paginateGo_reqs_shape rest _ _ _ _ q hq with hq2 | hq2
            · exact ⟨c, (getParam params0 limitKey).getD (.nat 0), hq2⟩
            · exact hq2
      · rw [paginate, paginateGo_break_non200 pg rest params0 0 mp [] h200] at hq
        simp at hq,
    by
      rintro q ⟨c, v, rfl⟩
      rfl⟩

/-- Witness for C5 at a concrete input. -/
theorem c5_cursor_requests_only_page_info_limit_witness :
    cursorShaped [(pageInfoKey, .str "cTWO".toList), (limitKey, .nat 250)] :=
  c5_cursor_requests_only_page_info_limit.1 c4Script [] 250 none
    [(pageInfoKey, .str "cTWO".toList), (limitKey, .nat 250)] (by decide)

/-- Witness for C3 at concrete inputs. -/
theorem c3_backoff_formula_monotone_witness :
    backoff 1 ≤ backoff 2 ∧
    (requestGo "s.myshopify.com" "/p.json" 1 none
        (.response 503 none none "" 0 :: [])).sleeps.head? = some (backoff 1) :=
  ⟨c3_backoff_formula_monotone.2.1 1 2 (by norm_num),
    c3_backoff_formula_monotone.2.2.1 "s.myshopify.com" "/p.json" 1 none 503
      none none "" 0 [] (by norm_num [MAX_RETRIES]) (by norm_num)⟩

/-! ## Claim C8: terminal errors -/

theorem requestGo_401_raises (sd ep : String) (a : Nat)
    (last : Option ShopifyError) (ra : Option ℚ) (er : Option String)
    (tx : String) (p : Nat) (rest : List HttpEvent) (ha : a < MAX_RETRIES) :
    requestGo sd ep a last (.response 401 ra er tx p :: rest)
      = ⟨.err (.authError "Invalid or expired access token" 401), [], 1⟩ := by
  have hga : ¬ MAX_RETRIES ≤ a := by omega
  simp [requestGo, hga]

theorem requestGo_403_raises (sd ep : String) (a : Nat)
    (last : Option ShopifyError) (ra : Option ℚ) (er : Option String)
    (tx : String) (p : Nat) (rest : List HttpEvent) (ha : a < MAX_RETRIES) :
    requestGo sd ep a last (.response 403 ra er tx p :: rest)
      = ⟨.err (.authError ("Access forbidden: "
          ++ er.getD "Insufficient permissions") 403), [], 1⟩ := by
  have hga : ¬ MAX_RETRIES ≤ a := by omega
  simp [requestGo, hga]

theorem requestGo_404_raises (sd ep : String) (a : Nat)
    (last : Option ShopifyError) (ra : Option ℚ) (er : Option String)
    (tx : String) (p : Nat) (rest : List HttpEvent) (ha : a < MAX_RETRIES) :
    requestGo sd ep a last (.response 404 ra er tx p :: rest)
      = ⟨.err (.notFoundError ("Resource not found: " ++ ep) 404), [], 1⟩ := by
  have hga : ¬ MAX_RETRIES ≤ a := by omega
  simp [requestGo, hga]

theorem requestGo_422_raises (sd ep : String) (a : Nat)
    (last : Option ShopifyError) (ra : Option ℚ) (er : Option String)
    (tx : String) (p : Nat) (rest : List HttpEvent) (ha : a < MAX_RETRIES) :
    ∃ e : ShopifyError,
      (requestGo sd ep a last (.response 422 ra er tx p :: rest)).result
        = .err e := by
  have hga : ¬ MAX_RETRIES ≤ a := by omega
  refine ⟨.apiError (if containsSub "Unavailable Shop".toList (er.getD tx).toList then
    unavailableShopMessage sd else "API error: " ++ er.getD tx) (some 422), ?_⟩
  simp [requestGo, hga]

/-- The second page of the C8 counterexample run: an auth failure. -/
def page401 : Page := ⟨401, [900, 901], []⟩

/-- C8 counterexample: a `_paginate` walk whose second page responds
401 does not raise — it breaks out of the loop and returns the first
page's 250 items as a normal (partial) result, with no error
anywhere in the outcome. -/
theorem c8_counterexample_paginate_swallows_401 :
    paginate [page1, page401] [] 250 none
      = ⟨some (List.range 250),
         [[(limitKey, .nat 250)],
          [(pageInfoKey, .str "cTWO".toList), (limitKey, .nat 250)]]⟩ := by
  set_option maxRecDepth 40000 in decide

/-- C8 (amended): `_request` does raise every terminal error (401, 403,
404, unclassified non-2xx) to its caller on the attempt it occurs, but
`_paginate` issues its page GETs directly (not through `_request`) and
breaks out of the loop on any non-200 status, returning the items
collected so far as a partial success instead of raising. -/
theorem c8_request_raises_paginate_swallows :
    (∀ (sd ep : String) (a : Nat) (last : Option ShopifyError) (ra : Option ℚ)
        (er : Option String) (tx : String) (p : Nat) (rest : List HttpEvent),
      a < MAX_RETRIES →
        requestGo sd ep a last (.response 401 ra er tx p :: rest)
          = ⟨.err (.authError "Invalid or expired access token" 401), [], 1⟩) ∧
    (∀ (sd ep : String) (a : Nat) (last : Option ShopifyError) (ra : Option ℚ)
        (er : Option String) (tx : String) (p : Nat) (rest : List HttpEvent),
      a < MAX_RETRIES →
        requestGo sd ep a last (.response 403 ra er tx p :: rest)
          = ⟨.err (.authError ("Access forbidden: "
              ++ er.getD "Insufficient permissions") 403), [], 1⟩) ∧
    (∀ (sd ep : String) (a : Nat) (last : Option ShopifyError) (ra : Option ℚ)
        (er : Option String) (tx : String) (p : Nat) (rest : List HttpEvent),
      a < MAX_RETRIES →
        requestGo sd ep a last (.response 404 ra er tx p :: rest)
          = ⟨.err (.notFoundError ("Resource not found: " ++ ep) 404), [], 1⟩) ∧
    (∀ (pg : Page) (rest : List Page) (params : List (List Char × PVal))
        (pc : Nat) (mp : Option Nat) (acc : List Nat),
      ¬ pg.status = 200 →
        paginateGo (pg :: rest) params pc mp acc = ⟨some acc, [params]⟩) :=
  ⟨requestGo_401_raises, requestGo_403_raises, requestGo_404_raises,
    paginateGo_break_non200⟩

/-- Witness for C8 (amended) at concrete inputs. -/
theorem c8_request_raises_paginate_swallows_witness :
    requestGo "s.myshopify.com" "/shop.json" 0 none
        (.response 401 none none "" 0 :: [])
      = ⟨.err (.authError "Invalid or expired access token" 401), [], 1⟩ ∧
    paginateGo [page401] [(limitKey, .nat 250)] 0 none [5]
      = ⟨some [5], [[(limitKey, .nat 250)]]⟩ :=
  ⟨c8_request_raises_paginate_swallows.1 "s.myshopify.com" "/shop.json" 0 none
      none none "" 0 [] (by norm_num [MAX_RETRIES]),
    c8_request_raises_paginate_swallows.2.2.2 page401 [] [(limitKey, .nat 250)]
      0 none [5] (by decide)⟩

/-! ## Claim C7: `ShopifyCapabilityChecker._check_product_write`

The probe creates a draft product and then deletes it inside one
`try` block; `capability.enabled = True` is only executed after both
calls return, and both `except` arms set `capability.error = str(e)`
and leave `enabled` at its initial `False`. -/

/-- The fields of `ShopifyCapability` the probe writes. -/
structure Capability where
  name : String
  scope : String
  enabled : Bool
  error : Option String
  deriving DecidableEq

/-- Python `str(e)` on the embedded exceptions: the message. -/
def errStr : ShopifyError → String
  | .apiError m _ => m
  | .authError m _ => m
  | .notFoundError m _ => m

/-- Model of `_check_product_write`, over the outcomes of the two client calls
it makes: `create_product` (returning the new product id) and
`delete_product` on that id.  The second component records whether the
delete was attempted. -/
def checkProductWrite (createRes : Except ShopifyError Nat)
    (deleteRes : Nat → Except ShopifyError Unit) : Capability × Bool :=
  match createRes with
  | .error e =>
    (⟨"product_write", "write_products", false, some (errStr e)⟩, false)
  | .ok pid =>
    match deleteRes pid with
    | .error e =>
      (⟨"product_write", "write_products", false, some (errStr e)⟩, true)
    | .ok _ =>
      (⟨"product_write", "write_products", true, none⟩, true)

/-- C7 counterexample: when the create succeeds and the delete fails,
the capability does NOT keep `enabled=true` — `enabled = True` is only
assigned after the delete, so the `except` arm leaves it `False`, and
the leaked product is only reflected in the generic `error` string, not
in any distinct leak condition. -/
theorem c7_counterexample_delete_failure_disables :
    (checkProductWrite (.ok 42)
        (fun _ => .error (.apiError "boom" (some 500)))).1.enabled = false := by
  decide

/-- C7 (amended): the delete is attempted exactly when the create
succeeded; when the delete then fails, the capability reports
`enabled=false` with only the delete error string recorded (no distinct
leak condition); only when both calls succeed is `enabled=true`. -/
theorem c7_delete_attempted_but_failure_disables :
    (∀ (createRes : Except ShopifyError Nat)
        (deleteRes : Nat → Except ShopifyError Unit),
      (checkProductWrite createRes deleteRes).2 = true
        ↔ ∃ pid, createRes = .ok pid) ∧
    (∀ (pid : Nat) (deleteRes : Nat → Except ShopifyError Unit) (e : ShopifyError),
      deleteRes pid = .error e →
        (checkProductWrite (.ok pid) deleteRes).1
          = ⟨"product_write", "write_products", false, some (errStr e)⟩) ∧
    (∀ (pid : Nat) (deleteRes : Nat → Except ShopifyError Unit),
      deleteRes pid = .ok () →
        (checkProductWrite (.ok pid) deleteRes).1
          = ⟨"product_write", "write_products", true, none⟩) :=
  ⟨fun createRes deleteRes => by
      cases createRes with
      | error e => simp [checkProductWrite]
      | ok pid =>
        cases hd : deleteRes pid with
        | error e => simp [checkProductWrite, hd]
        | ok u => simp [checkProductWrite, hd],
    fun pid deleteRes e hd => by simp [checkProductWrite, hd],
    fun pid deleteRes hd => by simp [checkProductWrite, hd]⟩

/-- Witness for C7 (amended) at concrete inputs. -/
theorem c7_delete_attempted_but_failure_disables_witness :
    (checkProductWrite (.ok 42)
        (fun _ => .error (.apiError "boom" (some 500)))).1
      = ⟨"product_write", "write_products", false,
         some (errStr (.apiError "boom" (some 500)))⟩ :=
  c7_delete_attempted_but_failure_disables.2.1 42
    (fun _ => .error (.apiError "boom" (some 500))) (.apiError "boom" (some 500)) rfl

/-! ## Claim C6: `verify_shopify_hmac`

`hmac.new(secret.encode("utf-8"), data, hashlib.sha256)` /
`base64.b64encode` / `hmac.compare_digest` are modelled by executable
implementations of FIPS 180-4 SHA-256 (32-bit words as `Nat` with
explicit `% 2^32`), RFC 2104 HMAC and RFC 4648 base64; the SHA-256 and
HMAC implementations are checked below against the official test
vectors. -/

def w32 (x : Nat) : Nat := x % 4294967296

def rotr32 (n x : Nat) : Nat := w32 (x / 2 ^ n + x % 2 ^ n * 2 ^ (32 - n))

def shr32 (n x : Nat) : Nat := x / 2 ^ n

def not32 (x : Nat) : Nat := Nat.xor x 4294967295

def xor3 (a b c : Nat) : Nat := Nat.xor (Nat.xor a b) c

def ch (x y z : Nat) : Nat := Nat.xor (Nat.land x y) (Nat.land (not32 x) z)

def maj (x y z : Nat) : Nat := xor3 (Nat.land x y) (Nat.land x z) (Nat.land y z)

def bigS0 (x : Nat) : Nat := xor3 (rotr32 2 x) (rotr32 13 x) (rotr32 22 x)

def bigS1 (x : Nat) : Nat := xor3 (rotr32 6 x) (rotr32 11 x) (rotr32 25 x)

def smallS0 (x : Nat) : Nat := xor3 (rotr32 7 x) (rotr32 18 x) (shr32 3 x)

def smallS1 (x : Nat) : Nat := xor3 (rotr32 17 x) (rotr32 19 x) (shr32 10 x)

def K256 : List Nat :=
  [1116352408, 1899447441, 3049323471, 3921009573, 961987163,
   1508970993, 2453635748, 2870763221, 3624381080, 310598401,
   607225278, 1426881987, 1925078388, 2162078206, 2614888103,
   3248222580, 3835390401, 4022224774, 264347078, 604807628,
   770255983, 1249150122, 1555081692, 1996064986, 2554220882,
   2821834349, 2952996808, 3210313671, 3336571891, 3584528711,
   113926993, 338241895, 666307205, 773529912, 1294757372,
   1396182291, 1695183700, 1986661051, 2177026350, 2456956037,
   2730485921, 2820302411, 3259730800, 3345764771, 3516065817,
   3600352804, 4094571909, 275423344, 430227734, 506948616,
   659060556, 883997877, 958139571, 1322822218, 1537002063,
   1747873779, 1955562222, 2024104815, 2227730452, 2361852424,
   2428436474, 2756734187, 3204031479, 3329325298]

def H0 : List Nat :=
  [1779033703, 3144134277, 1013904242,
   2773480762, 1359893119, 2600822924,
   528734635, 1541459225]

/-- The `n` big-endian bytes of `v`. -/
def beBytes (n v : Nat) : List Nat :=
  (List.range n).map (fun i => v / 2 ^ (8 * (n - 1 - i)) % 256)

/-- SHA-256 padding: `0x80`, zeros to 56 mod 64, 8-byte big-endian bit
length. -/
def sha256Pad (msg : List Nat) : List Nat :=
  msg ++ [0x80] ++ List.replicate ((119 - msg.length % 64) % 64) 0
    ++ beBytes 8 (8 * msg.length)

/-- Big-endian 32-bit words from bytes. -/
def toWords : List Nat → List Nat
  | a :: b :: c :: d :: rest => (((a * 256 + b) * 256 + c) * 256 + d) :: toWords rest
  | _ => []

/-- Extend the 16 message-schedule words by `n` more. -/
def extendSchedule : Nat → List Nat → List Nat
  | 0, ws => ws
  | n + 1, ws =>
    let i := ws.length
    let w := w32 (smallS1 (ws.getD (i - 2) 0) + ws.getD (i - 7) 0
      + smallS0 (ws.getD (i - 15) 0) + ws.getD (i - 16) 0)
    extendSchedule n (ws ++ [w])

/-- One SHA-256 compression round on the state `[a,b,c,d,e,f,g,h]`. -/
def roundFn (s : List Nat) (k : Nat) (w : Nat) : List Nat :=
  match s with
  | [a, b, c, d, e, f, g, h] =>
    let t1 := w32 (h + bigS1 e + ch e f g + k + w)
    let t2 := w32 (bigS0 a + maj a b c)
    [w32 (t1 + t2), a, b, c, w32 (d + t1), e, f, g]
  | _ => s

/-- Compress one 64-byte block into the running hash state. -/
def compressBlock (h : List Nat) (block : List Nat) : List Nat :=
  let ws := extendSchedule 48 (toWords block)
  let final := (K256.zip ws).foldl (fun s kw => roundFn s kw.1 kw.2) h
  (h.zip final).map (fun p => w32 (p.1 + p.2))

/-- Split into 64-byte chunks (structurally, so the kernel can
evaluate it). -/
def chunkAcc : List Nat → List Nat → List (List Nat)
  | [], acc => if acc = [] then [] else [acc.reverse]
  | x :: xs, acc =>
    let acc2 := x :: acc
    if acc2.length = 64 then acc2.reverse :: chunkAcc xs [] else chunkAcc xs acc2

def chunks64 (l : List Nat) : List (List Nat) := chunkAcc l []

/-- FIPS 180-4 SHA-256 of a byte list. -/
def sha256 (msg : List Nat) : List Nat :=
  (((chunks64 (sha256Pad msg)).foldl compressBlock H0).map (beBytes 4)).flatten

/-- RFC 2104 HMAC-SHA256. -/
def hmacSha256 (key msg : List Nat) : List Nat :=
  let k0 := if 64 < key.length then sha256 key else key
  let kp := k0 ++ List.replicate (64 - k0.length) 0
  let ipad := kp.map (fun b => Nat.xor b 0x36)
  let opad := kp.map (fun b => Nat.xor b 0x5c)
  sha256 (opad ++ sha256 (ipad ++ msg))

set_option maxRecDepth 20000 in
example : sha256 [0x61, 0x62, 0x63] = [0xba, 0x78, 0x16, 0xbf, 0x8f, 0x01, 0xcf,
    0xea, 0x41, 0x41, 0x40, 0xde, 0x5d, 0xae, 0x22, 0x23, 0xb0, 0x03, 0x61, 0xa3,
    0x96, 0x17, 0x7a, 0x9c, 0xb4, 0x10, 0xff, 0x61, 0xf2, 0x00, 0x15, 0xad] := by
  decide

set_option maxRecDepth 40000 in
example : hmacSha256 ("Jefe".toList.map Char.toNat)
    ("what do ya want for nothing?".toList.map Char.toNat)
  = [0x5b, 0xdc, 0xc1, 0x46, 0xbf, 0x60, 0x75, 0x4e, 0x6a, 0x04, 0x24, 0x26, 0x08,
     0x95, 0x75, 0xc7, 0x5a, 0x00, 0x3f, 0x08, 0x9d, 0x27, 0x39, 0x83, 0x9d, 0xec,
     0x58, 0xb9, 0x64, 0xec, 0x38, 0x43] := by decide

def b64Alphabet : List Char :=
  "ABCDEFGHIJKLMNOPQRSTUVWXYZabcdefghijklmnopqrstuvwxyz0123456789+/".toList

def b64Char (n : Nat) : Char := b64Alphabet.getD n 'A'

/-- RFC 4648 base64 encoding of a byte list. -/
def base64Encode : List Nat → List Char
  | [] => []
  | [a] => [b64Char (a / 4), b64Char (a % 4 * 16), '=', '=']
  | [a, b] => [b64Char (a / 4), b64Char (a % 4 * 16 + b / 16),
      b64Char (b % 16 * 4), '=']
  | a :: b :: c :: rest =>
    b64Char (a / 4) :: b64Char (a % 4 * 16 + b / 16)
      :: b64Char (b % 16 * 4 + c / 64) :: b64Char (c % 64) :: base64Encode rest

/-- Index of a character in the base64 alphabet. -/
def b64Inv (c : Char) : Nat := b64Alphabet.indexOf c

/-- Base64 decoding (of well-formed encodings); the left inverse used
to prove `base64Encode` injective on byte lists. -/
def base64Decode : List Char → List Nat
  | x :: y :: z :: w :: rest =>
    if z = '=' then [b64Inv x * 4 + b64Inv y / 16]
    else if w = '=' then
      [b64Inv x * 4 + b64Inv y / 16, b64Inv y % 16 * 16 + b64Inv z / 4]
    else (b64Inv x * 4 + b64Inv y / 16) :: (b64Inv y % 16 * 16 + b64Inv z / 4)
      :: (b64Inv z % 4 * 64 + b64Inv w) :: base64Decode rest
  | _ => []

/-- Python `str.encode("utf-8")` as a byte list. -/
def utf8EncodeChar (c : Char) : List Nat :=
  let n := c.toNat
  if n < 0x80 then [n]
  else if n < 0x800 then [0xC0 + n / 64, 0x80 + n % 64]
  else if n < 0x10000 then [0xE0 + n / 4096, 0x80 + n / 64 % 64, 0x80 + n % 64]
  else [0xF0 + n / 262144, 0x80 + n / 4096 % 64, 0x80 + n / 64 % 64, 0x80 + n % 64]

def utf8Encode (s : String) : List Nat := (s.toList.map utf8EncodeChar).flatten

/-- Model of `verify_shopify_hmac(data, hmac_header, secret)`: raise on a falsy
header or secret, compute the base64 HMAC-SHA256 of the body under the
UTF-8 secret, compare it to the header with `hmac.compare_digest`, and
raise on mismatch; only a match returns `True`.  Raising
`WebhookVerificationError(msg)` is modelled as `.error msg`. -/
def verify_shopify_hmac (data : List Nat) (hmacHeader : String) (secret : String) :
    Except String Bool :=
  if hmacHeader = "" then .error "Missing HMAC header"
  else if secret = "" then .error "Missing API secret"
  else
    let calculated_b64 : String := ⟨base64Encode (hmacSha256 (utf8Encode secret) data)⟩
    if ¬ (calculated_b64 = hmacHeader) then .error "Invalid HMAC signature"
    else .ok true

theorem b64Inv_b64Char : ∀ k, k < 64 → b64Inv (b64Char k) = k := by decide

theorem b64Char_ne_eqsign : ∀ k, k < 64 → b64Char k ≠ '=' := by decide

theorem mulAddDiv (x r n : Nat) (hn : 0 < n) (hr : r < n) : (x * n + r) / n = x := by
  rw [Nat.add_comm, Nat.add_mul_div_right _ _ hn, Nat.div_eq_of_lt hr, Nat.zero_add]

theorem mulAddMod (x r n : Nat) (hr : r < n) : (x * n + r) % n = r := by
  rw [Nat.mul_comm, Nat.mul_add_mod, Nat.mod_eq_of_lt hr]

theorem base64Decode_encode :
    ∀ bs : List Nat, (∀ b ∈ bs, b < 256) → base64Decode (base64Encode bs) = bs
  | [], _ => rfl
  | [a], h => by
    have ha : a < 256 := h a (by simp)
    have h1 : a / 4 < 64 := by omega
    have h2 : a % 4 * 16 < 64 := by omega
    have e1 : a % 4 * 16 / 16 = a % 4 := by
      simpa using mulAddDiv (a % 4) 0 16 (by norm_num) (by norm_num)
    simp only [base64Encode, base64Decode, if_true,
      b64Inv_b64Char _ h1, b64Inv_b64Char _ h2, e1, List.cons.injEq, and_true]
    omega
  | [a, b], h => by
    have ha : a < 256 := h a (by simp)
    have hb : b < 256 := h b (by simp)
    have h1 : a / 4 < 64 := by omega
    have h2 : a % 4 * 16 + b / 16 < 64 := by omega
    have h3 : b % 16 * 4 < 64 := by omega
    have e1 : (a % 4 * 16 + b / 16) / 16 = a % 4 :=
      mulAddDiv _ _ _ (by norm_num) (by omega)
    have e2 : (a % 4 * 16 + b / 16) % 16 = b / 16 := mulAddMod _ _ _ (by omega)
    have e3 : b % 16 * 4 / 4 = b % 16 := by
      simpa using mulAddDiv (b % 16) 0 4 (by norm_num) (by norm_num)
    simp only [base64Encode, base64Decode, b64Char_ne_eqsign _ h3, if_true, if_false,
      b64Inv_b64Char _ h1, b64Inv_b64Char _ h2, b64Inv_b64Char _ h3,
      e1, e2, e3, List.cons.injEq, and_true]
    exact ⟨by omega, by omega⟩
  | a :: b :: c :: rest, h => by
    have ha : a < 256 := h a (by simp)
    have hb : b < 256 := h b (by simp)
    have hc : c < 256 := h c (by simp)
    have h1 : a / 4 < 64 := by omega
    have h2 : a % 4 * 16 + b / 16 < 64 := by omega
    have h3 : b % 16 * 4 + c / 64 < 64 := by omega
    have h4 : c % 64 < 64 := by omega
    have e1 : (a % 4 * 16 + b / 16) / 16 = a % 4 :=
      mulAddDiv _ _ _ (by norm_num) (by omega)
    have e2 : (a % 4 * 16 + b / 16) % 16 = b / 16 := mulAddMod _ _ _ (by omega)
    have e3 : (b % 16 * 4 + c / 64) / 4 = b % 16 :=
      mulAddDiv _ _ _ (by norm_num) (by omega)
    have e4 : (b % 16 * 4 + c / 64) % 4 = c / 64 := mulAddMod _ _ _ (by omega)
    have ih := base64Decode_encode rest (fun x hx => h x (by simp [hx]))
    simp only [base64Encode, base64Decode, b64Char_ne_eqsign _ h3,
      b64Char_ne_eqsign _ h4, if_true, if_false, b64Inv_b64Char _ h1,
      b64Inv_b64Char _ h2, b64Inv_b64Char _ h3, b64Inv_b64Char _ h4, e1, e2, e3, e4,
      ih, List.cons.injEq, and_true]
    exact ⟨by omega, by omega, by omega⟩

theorem base64Encode_injOn (bs cs : List Nat) (hb : ∀ b ∈ bs, b < 256)
    (hc : ∀ c ∈ cs, c < 256) (h : base64Encode bs = base64Encode cs) : bs = cs := by
  have := congrArg base64Decode h
  rwa [base64Decode_encode bs hb, base64Decode_encode cs hc] at this

theorem roundFn_length (s : List Nat) (k w : Nat) : (roundFn s k w).length = s.length := by
  unfold roundFn
  split <;> rfl

theorem foldl_roundFn_length (l : List (Nat × Nat)) :
    ∀ s : List Nat, (l.foldl (fun s kw => roundFn s kw.1 kw.2) s).length = s.length := by
  induction l with
  | nil => intro s; rfl
  | cons kw t ih =>
    intro s
    rw [List.foldl_cons, ih (roundFn s kw.1 kw.2), roundFn_length]

theorem compressBlock_length (h : List Nat) (b : List Nat) (hh : h.length = 8) :
    (compressBlock h b).length = 8 := by
  unfold compressBlock
  rw [List.length_map, List.length_zip, foldl_roundFn_length, hh]
  simp

theorem foldl_compress_length (chunks : List (List Nat)) :
    ∀ h : List Nat, h.length = 8 → (chunks.foldl compressBlock h).length = 8 := by
  induction chunks with
  | nil => intro h hh; simpa using hh
  | cons c t ih =>
    intro h hh
    rw [List.foldl_cons]
    exact ih _ (compressBlock_length h c hh)

theorem beBytes_length (n v : Nat) : (beBytes n v).length = n := by
  simp [beBytes]

theorem sha256_length (m : List Nat) : (sha256 m).length = 32 := by
  unfold sha256
  rw [List.length_flatten, List.map_map]
  have h8 := foldl_compress_length (chunks64 (sha256Pad m)) H0 rfl
  have : (List.length ∘ beBytes 4)
      = fun _ : Nat => 4 := by
    funext v
    simp [beBytes_length]
  rw [this, List.map_const', List.sum_replicate, h8]
  rfl

theorem beBytes_mem_lt (n v : Nat) : ∀ b ∈ beBytes n v, b < 256 := by
  intro b hb
  simp only [beBytes, List.mem_map] at hb
  obtain ⟨i, _, hi⟩ := hb
  omega

theorem sha256_mem_lt (m : List Nat) : ∀ b ∈ sha256 m, b < 256 := by
  intro b hb
  unfold sha256 at hb
  rw [List.mem_flatten] at hb
  obtain ⟨l, hl, hbl⟩ := hb
  rw [List.mem_map] at hl
  obtain ⟨w, _, rfl⟩ := hl
  exact beBytes_mem_lt 4 w b hbl

theorem base64Encode_ne_nil (bs : List Nat) (h : bs ≠ []) : base64Encode bs ≠ [] := by
  match bs with
  | [] => exact absurd rfl h
  | [a] => simp [base64Encode]
  | [a, b] => simp [base64Encode]
  | a :: b :: c :: rest => simp [base64Encode]

theorem hmac_header_ne_empty (secret : String) (data : List Nat) :
    (⟨base64Encode (hmacSha256 (utf8Encode secret) data)⟩ : String) ≠ "" := by
  intro he
  have hd : base64Encode (hmacSha256 (utf8Encode secret) data) = [] := by
    have := congrArg String.data he
    simpa using this
  have hlen := sha256_length
    ((hmacSha256 (utf8Encode secret) data).take 0)
  have hne : hmacSha256 (utf8Encode secret) data ≠ [] := by
    intro h0
    have h32 : (hmacSha256 (utf8Encode secret) data).length = 32 := by
      unfold hmacSha256
      exact sha256_length _
    rw [h0] at h32
    simp at h32
  exact base64Encode_ne_nil _ hne hd

theorem verify_ok_iff (data : List Nat) (hmacHeader secret : String) :
    verify_shopify_hmac data hmacHeader secret = .ok true
      ↔ hmacHeader ≠ "" ∧ secret ≠ "" ∧
        hmacHeader = ⟨base64Encode (hmacSha256 (utf8Encode secret) data)⟩ := by
  unfold verify_shopify_hmac
  constructor
  · intro h
    by_cases h1 : hmacHeader = ""
    · rw [if_pos h1] at h; exact absurd h (by simp)
    · rw [if_neg h1] at h
      by_cases h2 : secret = ""
      · rw [if_pos h2] at h; exact absurd h (by simp)
      · rw [if_neg h2] at h
        by_cases h3 : (⟨base64Encode (hmacSha256 (utf8Encode secret) data)⟩ : String)
            = hmacHeader
        · exact ⟨h1, h2, h3.symm⟩
        · rw [if_pos h3] at h
          exact absurd h (by simp)
  · rintro ⟨h1, h2, h3⟩
    rw [if_neg h1, if_neg h2, if_neg (by simp [h3.symm])]

theorem verify_missing_header (data : List Nat) (secret : String) :
    verify_shopify_hmac data "" secret = .error "Missing HMAC header" := rfl

theorem verify_missing_secret (data : List Nat) (hmacHeader : String)
    (h : hmacHeader ≠ "") :
    verify_shopify_hmac data hmacHeader "" = .error "Missing API secret" := by
  unfold verify_shopify_hmac
  rw [if_neg h, if_pos rfl]

theorem verify_mismatch (data : List Nat) (hmacHeader secret : String)
    (h1 : hmacHeader ≠ "") (h2 : secret ≠ "")
    (h3 : hmacHeader ≠ ⟨base64Encode (hmacSha256 (utf8Encode secret) data)⟩) :
    verify_shopify_hmac data hmacHeader secret = .error "Invalid HMAC signature" := by
  unfold verify_shopify_hmac
  rw [if_neg h1, if_neg h2, if_pos (fun he => h3 (he.symm))]

theorem verify_never_ok_false (data : List Nat) (hmacHeader secret : String) :
    verify_shopify_hmac data hmacHeader secret ≠ .ok false := by
  unfold verify_shopify_hmac
  by_cases h1 : hmacHeader = ""
  · rw [if_pos h1]; simp
  · rw [if_neg h1]
    by_cases h2 : secret = ""
    · rw [if_pos h2]; simp
    · rw [if_neg h2]
      by_cases h3 : (⟨base64Encode (hmacSha256 (utf8Encode secret) data)⟩ : String)
          = hmacHeader
      · rw [if_neg (fun hc => hc h3)]; simp
      · rw [if_pos h3]; simp

theorem verify_correct_passes (data : List Nat) (secret : String) (h2 : secret ≠ "") :
    verify_shopify_hmac data
      ⟨base64Encode (hmacSha256 (utf8Encode secret) data)⟩ secret = .ok true :=
  (verify_ok_iff data _ secret).mpr ⟨hmac_header_ne_empty secret data, h2, rfl⟩

theorem hmac_mem_lt (k m : List Nat) : ∀ b ∈ hmacSha256 k m, b < 256 := by
  unfold hmacSha256
  exact fun b hb => sha256_mem_lt _ b hb

theorem hmac_length (k m : List Nat) : (hmacSha256 k m).length = 32 := by
  unfold hmacSha256
  exact sha256_length _

theorem verify_flipped_body_fails (data data2 : List Nat) (secret : String)
    (h2 : secret ≠ "")
    (hd : hmacSha256 (utf8Encode secret) data2 ≠ hmacSha256 (utf8Encode secret) data) :
    verify_shopify_hmac data2
      ⟨base64Encode (hmacSha256 (utf8Encode secret) data)⟩ secret
      = .error "Invalid HMAC signature" := by
  apply verify_mismatch _ _ _ (hmac_header_ne_empty secret data) h2
  intro he
  apply hd
  refine base64Encode_injOn (hmacSha256 (utf8Encode secret) data2)
    (hmacSha256 (utf8Encode secret) data) (hmac_mem_lt _ _) (hmac_mem_lt _ _) ?_
  exact (congrArg String.data he).symm

/-- C6: `verify_shopify_hmac` returns `True` exactly when the header
equals the base64 HMAC-SHA256 of the body under the secret; an
empty/missing header, an empty/missing secret, and any mismatching
header each raise `WebhookVerificationError` (and `False` is never
returned); in particular a correct pair passes, and altering the body
so that its digest changes — which is what flipping a body byte does,
under SHA-256 collision resistance — or altering the signature header
fails verification. -/
theorem c6_verify_hmac_fail_closed :
    (∀ (data : List Nat) (hmacHeader secret : String),
      verify_shopify_hmac data hmacHeader secret = .ok true
        ↔ hmacHeader ≠ "" ∧ secret ≠ "" ∧
          hmacHeader = ⟨base64Encode (hmacSha256 (utf8Encode secret) data)⟩) ∧
    (∀ (data : List Nat) (secret : String),
      verify_shopify_hmac data "" secret = .error "Missing HMAC header") ∧
    (∀ (data : List Nat) (hmacHeader : String), hmacHeader ≠ "" →
      verify_shopify_hmac data hmacHeader "" = .error "Missing API secret") ∧
    (∀ (data : List Nat) (hmacHeader secret : String),
      hmacHeader ≠ "" → secret ≠ "" →
      hmacHeader ≠ ⟨base64Encode (hmacSha256 (utf8Encode secret) data)⟩ →
        verify_shopify_hmac data hmacHeader secret
          = .error "Invalid HMAC signature") ∧
    (∀ (data : List Nat) (hmacHeader secret : String),
      verify_shopify_hmac data hmacHeader secret ≠ .ok false) ∧
    (∀ (data : List Nat) (secret : String), secret ≠ "" →
      verify_shopify_hmac data
        ⟨base64Encode (hmacSha256 (utf8Encode secret) data)⟩ secret = .ok true) ∧
    (∀ (data data2 : List Nat) (secret : String), secret ≠ "" →
      hmacSha256 (utf8Encode secret) data2 ≠ hmacSha256 (utf8Encode secret) data →
        verify_shopify_hmac data2
          ⟨base64Encode (hmacSha256 (utf8Encode secret) data)⟩ secret
          = .error "Invalid HMAC signature") :=
  ⟨verify_ok_iff, verify_missing_header, verify_missing_secret, verify_mismatch,
    verify_never_ok_false, verify_correct_passes, verify_flipped_body_fails⟩

set_option maxRecDepth 100000 in
/-- Witness for C6 at concrete inputs: a correctly signed two-byte body
passes, and the same body with its second byte altered fails (its
digest is evaluated to differ). -/
theorem c6_verify_hmac_fail_closed_witness :
    verify_shopify_hmac [104, 105]
        ⟨base64Encode (hmacSha256 (utf8Encode "sekrit") [104, 105])⟩ "sekrit"
      = .ok true ∧
    verify_shopify_hmac [104, 106]
        ⟨base64Encode (hmacSha256 (utf8Encode "sekrit") [104, 105])⟩ "sekrit"
      = .error "Invalid HMAC signature" ∧
    verify_shopify_hmac [104, 105] "" "sekrit" = .error "Missing HMAC header" :=
  ⟨c6_verify_hmac_fail_closed.2.2.2.2.2.1 [104, 105] "sekrit" (by decide),
    c6_verify_hmac_fail_closed.2.2.2.2.2.2 [104, 105] [104, 106] "sekrit"
      (by decide) (by decide),
    c6_verify_hmac_fail_closed.2.1 [104, 105] "sekrit"⟩

/-! ## Claim C9: `_wait_for_rate_limit`

Time is modelled exactly as rationals; `asyncio.sleep(w)` is assumed to
wake exactly `w` seconds later and the `time.monotonic()` re-read after
the sleep to return exactly that wake time, so the recorded timestamp
is `now + wait_time`.  Successive calls hold the same lock, so each
call's `now` is at least the previous call's recorded admission time;
`runLimiterGo` models this with `now = max t last`. -/

def RATE_LIMIT_CALLS : Nat := 2

def RATE_LIMIT_PERIOD : ℚ := 1

/-- The pruning comprehension: keep timestamps with `now - ts < period`. -/
def pruneStamps (now : ℚ) (ts : List ℚ) : List ℚ :=
  ts.filter (fun t => now - t < RATE_LIMIT_PERIOD)

/-- Python `min(list)` (with a default for the empty case, which the
caller's length guard makes unreachable). -/
def listMin : List ℚ → ℚ → ℚ
  | [], d => d
  | x :: xs, _ => xs.foldl min x

/-- One call of `_wait_for_rate_limit` entered at time `now`: prune,
wait for the oldest in-window entry to expire when at the limit, and
record the admission time.  Returns `(admission time, new state)`. -/
def waitForRateLimit (now : ℚ) (ts : List ℚ) : ℚ × List ℚ :=
  let pruned := pruneStamps now ts
  if RATE_LIMIT_CALLS ≤ pruned.length then
    let oldest := listMin pruned 0
    let wait_time := RATE_LIMIT_PERIOD - (now - oldest)
    let admitAt := if 0 < wait_time then now + wait_time else now
    (admitAt, pruned ++ [admitAt])
  else (now, pruned ++ [now])

/-- Run a sequence of acquire requests (each with an intended arrival
time) through the limiter, accumulating the admission times. -/
def runLimiterGo : List ℚ → List ℚ → ℚ → List ℚ → List ℚ × List ℚ × ℚ
  | [], ts, last, A => (A, ts, last)
  | t :: rest, ts, last, A =>
    let now := max t last
    let p := waitForRateLimit now ts
    runLimiterGo rest p.2 p.1 (A ++ [p.1])

def limiterAdmissions (reqs : List ℚ) : List ℚ := (runLimiterGo reqs [] 0 []).1

def limiterState (reqs : List ℚ) : List ℚ := (runLimiterGo reqs [] 0 []).2.1

def limiterLast (reqs : List ℚ) : ℚ := (runLimiterGo reqs [] 0 []).2.2

/-- Whether `a` lies in the trailing window `(u - period, u]`. -/
def inWindow (u a : ℚ) : Bool := decide (a ≤ u) && decide (u - a < RATE_LIMIT_PERIOD)

/-- The inductive invariant of the limiter: state entries never exceed
the last admission time; at any future instant the pruned state holds
at most the quota; the admissions in any future window are covered by
the state; and every trailing window holds at most the quota of
admissions. -/
structure LimiterInv (ts : List ℚ) (last : ℚ) (A : List ℚ) : Prop where
  ts_le : ∀ x ∈ ts, x ≤ last
  state_bound : ∀ u, last ≤ u → (pruneStamps u ts).length ≤ RATE_LIMIT_CALLS
  adm_le_state : ∀ u, last ≤ u →
    (A.filter (fun a => inWindow u a)).length ≤ (pruneStamps u ts).length
  window_bound : ∀ t, (A.filter (fun a => inWindow t a)).length ≤ RATE_LIMIT_CALLS

theorem foldl_min_mem : ∀ (xs : List ℚ) (x : ℚ), xs.foldl min x ∈ x :: xs
  | [], x => by simp
  | y :: ys, x => by
    have ih := foldl_min_mem ys (min x y)
    simp only [List.foldl_cons]
    rcases List.mem_cons.mp ih with h | h
    · rw [h]
      rcases min_choice x y with hc | hc
      · rw [hc]
        exact List.mem_cons_self _ _
      · rw [hc]
        exact List.mem_cons_of_mem _ (List.mem_cons_self _ _)
    · exact List.mem_cons_of_mem _ (List.mem_cons_of_mem _ h)

theorem foldl_min_le : ∀ (xs : List ℚ) (x y : ℚ), y ∈ x :: xs → xs.foldl min x ≤ y
  | [], x, y, hy => by
    simp only [List.mem_singleton] at hy
    simp [hy]
  | z :: zs, x, y, hy => by
    simp only [List.foldl_cons]
    rcases List.mem_cons.mp hy with h | h
    · calc zs.foldl min (min x z) ≤ min x z :=
            foldl_min_le zs (min x z) (min x z) (List.mem_cons_self _ _)
        _ ≤ x := min_le_left _ _
        _ = y := h.symm
    · rcases List.mem_cons.mp h with h2 | h2
      · calc zs.foldl min (min x z) ≤ min x z :=
              foldl_min_le zs (min x z) (min x z) (List.mem_cons_self _ _)
          _ ≤ z := min_le_right _ _
          _ = y := h2.symm
      · exact foldl_min_le zs (min x z) y (List.mem_cons_of_mem _ h2)

theorem listMin_mem (l : List ℚ) (d : ℚ) (h : l ≠ []) : listMin l d ∈ l := by
  cases l with
  | nil => exact absurd rfl h
  | cons x xs => exact foldl_min_mem xs x

theorem listMin_le (l : List ℚ) (d y : ℚ) (hy : y ∈ l) : listMin l d ≤ y := by
  cases l with
  | nil => simp at hy
  | cons x xs => exact foldl_min_le xs x y hy

theorem prune_prune (ts : List ℚ) (now u : ℚ) (h : now ≤ u) :
    pruneStamps u (pruneStamps now ts) = pruneStamps u ts := by
  unfold pruneStamps
  rw [List.filter_filter]
  apply List.filter_congr
  intro x _
  by_cases hx : u - x < RATE_LIMIT_PERIOD
  · have h2 : now - x < RATE_LIMIT_PERIOD := lt_of_le_of_lt (by linarith) hx
    simp [hx, h2]
  · simp [hx]

theorem pruneStamps_append (u : ℚ) (a b : List ℚ) :
    pruneStamps u (a ++ b) = pruneStamps u a ++ pruneStamps u b := by
  unfold pruneStamps
  exact List.filter_append a b

theorem pruneStamps_le_length (u : ℚ) (l : List ℚ) :
    (pruneStamps u l).length ≤ l.length :=
  List.length_filter_le _ l

theorem pruneStamps_mem_le (u : ℚ) (l : List ℚ) (x : ℚ) (hx : x ∈ pruneStamps u l) :
    x ∈ l :=
  List.mem_of_mem_filter hx

theorem window_single (u a : ℚ) (h : a ≤ u) :
    (List.filter (fun x => inWindow u x) [a]).length = (pruneStamps u [a]).length := by
  unfold pruneStamps inWindow
  by_cases hx : u - a < RATE_LIMIT_PERIOD
  · simp [hx, h]
  · simp [hx]

theorem filter_single_le {p : ℚ → Bool} (a : ℚ) :
    (List.filter p [a]).length ≤ 1 :=
  List.length_filter_le p [a]

theorem prune_key (P : List ℚ) (oldest u : ℚ) (hmem : oldest ∈ P)
    (hu : oldest + RATE_LIMIT_PERIOD ≤ u) :
    (pruneStamps u P).length + 1 ≤ P.length := by
  have hsub : (pruneStamps u P).Sublist (P.filter (fun x => decide ¬ (x = oldest))) := by
    apply List.monotone_filter_right
    intro a ha
    simp only [decide_eq_true_eq] at ha ⊢
    intro heq
    subst heq
    linarith
  have h1 := hsub.length_le
  have h2 := List.length_eq_countP_add_countP (fun x => decide (x = oldest)) P
  rw [List.countP_eq_length_filter, List.countP_eq_length_filter] at h2
  have hconv : P.filter (fun a => decide ¬ (decide (a = oldest) = true))
      = P.filter (fun x => decide ¬ (x = oldest)) := by
    apply List.filter_congr
    intro x _
    simp
  rw [hconv] at h2
  have h3 : 0 < (P.filter (fun x => decide (x = oldest))).length := by
    apply List.length_pos.mpr
    intro hnil
    have hm : oldest ∈ P.filter (fun x => decide (x = oldest)) :=
      List.mem_filter.mpr ⟨hmem, by simp⟩
    rw [hnil] at hm
    simp at hm
  omega

theorem wfrl_no_wait (now : ℚ) (ts : List ℚ)
    (h : ¬ RATE_LIMIT_CALLS ≤ (pruneStamps now ts).length) :
    waitForRateLimit now ts = (now, pruneStamps now ts ++ [now]) := by
  simp [waitForRateLimit, h]

theorem wfrl_wait (now : ℚ) (ts : List ℚ)
    (h : RATE_LIMIT_CALLS ≤ (pruneStamps now ts).length)
    (hold : now - listMin (pruneStamps now ts) 0 < RATE_LIMIT_PERIOD) :
    waitForRateLimit now ts
      = (listMin (pruneStamps now ts) 0 + RATE_LIMIT_PERIOD,
         pruneStamps now ts ++ [listMin (pruneStamps now ts) 0 + RATE_LIMIT_PERIOD]) := by
  have hw : 0 < RATE_LIMIT_PERIOD - (now - listMin (pruneStamps now ts) 0) := by linarith
  have ha : now + (RATE_LIMIT_PERIOD - (now - listMin (pruneStamps now ts) 0))
      = listMin (pruneStamps now ts) 0 + RATE_LIMIT_PERIOD := by ring
  simp only [waitForRateLimit, if_pos h, if_pos hw, ha]

theorem limiter_step (ts : List ℚ) (last : ℚ) (A : List ℚ) (now : ℚ)
    (hnow : last ≤ now) (inv : LimiterInv ts last A) :
    LimiterInv (waitForRateLimit now ts).2 (waitForRateLimit now ts).1
      (A ++ [(waitForRateLimit now ts).1]) := by
  by_cases hq : RATE_LIMIT_CALLS ≤ (pruneStamps now ts).length
  · -- wait branch: the admission time is `oldest + RATE_LIMIT_PERIOD`
    have hP2 : (pruneStamps now ts).length = RATE_LIMIT_CALLS :=
      le_antisymm (inv.state_bound now hnow) hq
    have hPne : pruneStamps now ts ≠ [] := by
      intro h0
      rw [h0] at hP2
      simp [RATE_LIMIT_CALLS] at hP2
    have hmem := listMin_mem (pruneStamps now ts) 0 hPne
    have hold : now - listMin (pruneStamps now ts) 0 < RATE_LIMIT_PERIOD := by
      have := List.of_mem_filter hmem
      simpa using this
    have heq := wfrl_wait now ts hq hold
    rw [heq]
    dsimp only
    set oldest := listMin (pruneStamps now ts) 0 with holddef
    have hnowle : now ≤ oldest + RATE_LIMIT_PERIOD := by linarith
    have hlastle : last ≤ oldest + RATE_LIMIT_PERIOD := le_trans hnow hnowle
    have hkey : ∀ u, oldest + RATE_LIMIT_PERIOD ≤ u →
        (pruneStamps u ts).length + 1 ≤ RATE_LIMIT_CALLS := by
      intro u hu
      have hpp : pruneStamps u (pruneStamps now ts) = pruneStamps u ts :=
        prune_prune ts now u (le_trans hnowle hu)
      have hk := prune_key (pruneStamps now ts) oldest u hmem hu
      rw [hpp] at hk
      omega
    refine ⟨?_, ?_, ?_, ?_⟩
    · intro x hx
      rcases List.mem_append.mp hx with hx | hx
      · exact le_trans (inv.ts_le _ (pruneStamps_mem_le now ts x hx)) hlastle
      · simp only [List.mem_singleton] at hx
        rw [hx]
    · intro u hu
      rw [pruneStamps_append, List.length_append]
      have h1 : (pruneStamps u (pruneStamps now ts)).length + 1 ≤ RATE_LIMIT_CALLS := by
        rw [prune_prune ts now u (le_trans hnowle hu)]
        exact hkey u hu
      have h2 : (pruneStamps u [oldest + RATE_LIMIT_PERIOD]).length ≤ 1 :=
        pruneStamps_le_length u _ |>.trans (by simp)
      omega
    · intro u hu
      rw [List.filter_append, List.length_append, pruneStamps_append,
        List.length_append, prune_prune ts now u (le_trans hnowle hu)]
      have hJ2 : (A.filter (fun a => inWindow u a)).length
          ≤ (pruneStamps u ts).length := inv.adm_le_state u (le_trans hlastle hu)
      have hsingle := window_single u (oldest + RATE_LIMIT_PERIOD) hu
      omega
    · intro t
      rw [List.filter_append, List.length_append]
      by_cases hwa : inWindow t (oldest + RATE_LIMIT_PERIOD) = true
      · have hta : oldest + RATE_LIMIT_PERIOD ≤ t := by
          unfold inWindow at hwa
          simp only [Bool.and_eq_true, decide_eq_true_eq] at hwa
          exact hwa.1
        have hJ2 : (A.filter (fun a => inWindow t a)).length
            ≤ (pruneStamps t ts).length :=
          inv.adm_le_state t (le_trans hlastle hta)
        have hk := hkey t hta
        have hs : (List.filter (fun a => inWindow t a)
            [oldest + RATE_LIMIT_PERIOD]).length ≤ 1 := filter_single_le _
        omega
      · have hwa2 : inWindow t (oldest + RATE_LIMIT_PERIOD) = false := by
          simpa using hwa
        rw [List.filter_singleton, hwa2]
        simp only [Bool.cond_false, List.length_nil]
        have := inv.window_bound t
        omega
  · -- no-wait branch: the admission time is `now`
    have hP1 : (pruneStamps now ts).length ≤ 1 := by
      simp only [RATE_LIMIT_CALLS, not_le] at hq
      omega
    have heq := wfrl_no_wait now ts hq
    rw [heq]
    dsimp only
    refine ⟨?_, ?_, ?_, ?_⟩
    · intro x hx
      rcases List.mem_append.mp hx with hx | hx
      · exact le_trans (inv.ts_le _ (pruneStamps_mem_le now ts x hx)) hnow
      · simp only [List.mem_singleton] at hx
        rw [hx]
    · intro u hu
      rw [pruneStamps_append, List.length_append]
      have h1 : (pruneStamps u (pruneStamps now ts)).length
          ≤ (pruneStamps now ts).length := pruneStamps_le_length u _
      have h2 : (pruneStamps u [now]).length ≤ 1 :=
        pruneStamps_le_length u _ |>.trans (by simp)
      simp only [RATE_LIMIT_CALLS]
      omega
    · intro u hu
      rw [List.filter_append, List.length_append, pruneStamps_append,
        List.length_append, prune_prune ts now u hu]
      have hJ2 : (A.filter (fun a => inWindow u a)).length
          ≤ (pruneStamps u ts).length := inv.adm_le_state u (le_trans hnow hu)
      have hsingle := window_single u now hu
      omega
    · intro t
      rw [List.filter_append, List.length_append]
      by_cases hwa : inWindow t now = true
      · have hta : now ≤ t := by
          unfold inWindow at hwa
          simp only [Bool.and_eq_true, decide_eq_true_eq] at hwa
          exact hwa.1
        have hJ2 : (A.filter (fun a => inWindow t a)).length
            ≤ (pruneStamps t ts).length :=
          inv.adm_le_state t (le_trans hnow hta)
        have hpp : pruneStamps t (pruneStamps now ts) = pruneStamps t ts :=
          prune_prune ts now t hta
        have h1 : (pruneStamps t (pruneStamps now ts)).length
            ≤ (pruneStamps now ts).length := pruneStamps_le_length t _
        have hs : (List.filter (fun a => inWindow t a) [now]).length ≤ 1 :=
          filter_single_le _
        rw [hpp] at h1
        simp only [RATE_LIMIT_CALLS]
        omega
      · have hwa2 : inWindow t now = false := by simpa using hwa
        rw [List.filter_singleton, hwa2]
        simp only [Bool.cond_false, List.length_nil]
        have := inv.window_bound t
        omega

theorem limiterInv_init : LimiterInv [] 0 [] := by
  refine ⟨?_, ?_, ?_, ?_⟩ <;> intros <;> simp_all [pruneStamps, RATE_LIMIT_CALLS]

theorem runGo_inv :
    ∀ (reqs : List ℚ) (ts : List ℚ) (last : ℚ) (A : List ℚ),
      LimiterInv ts last A →
      LimiterInv (runLimiterGo reqs ts last A).2.1 (runLimiterGo reqs ts last A).2.2
        (runLimiterGo reqs ts last A).1
  | [], ts, last, A, inv => by simpa [runLimiterGo] using inv
  | t :: rest, ts, last, A, inv => by
    simp only [runLimiterGo]
    exact runGo_inv rest _ _ _
      (limiter_step ts last A (max t last) (le_max_right _ _) inv)

/-- C9: for any sequence of acquire requests, the limiter admits at
most `RATE_LIMIT_CALLS = 2` calls in any trailing window of length
`RATE_LIMIT_PERIOD = 1.0` seconds; equivalently, at (and after) the
final admission, the pruned recorded-timestamp list never holds more
than the quota of in-window entries. -/
theorem c9_rate_limiter_window_quota :
    (∀ (reqs : List ℚ) (t : ℚ),
      ((limiterAdmissions reqs).filter (fun a => inWindow t a)).length
        ≤ RATE_LIMIT_CALLS) ∧
    (∀ (reqs : List ℚ) (u : ℚ), limiterLast reqs ≤ u →
      (pruneStamps u (limiterState reqs)).length ≤ RATE_LIMIT_CALLS) :=
  ⟨fun reqs t => (runGo_inv reqs [] 0 [] limiterInv_init).window_bound t,
    fun reqs u hu => (runGo_inv reqs [] 0 [] limiterInv_init).state_bound u hu⟩

/-- Witness for C9 at concrete inputs. -/
theorem c9_rate_limiter_window_quota_witness :
    ((limiterAdmissions [0, 0, 0]).filter (fun a => inWindow 1 a)).length
      ≤ RATE_LIMIT_CALLS ∧
    (pruneStamps 5 (limiterState [])).length ≤ RATE_LIMIT_CALLS :=
  ⟨c9_rate_limiter_window_quota.1 [0, 0, 0] 1,
    c9_rate_limiter_window_quota.2 [] 5
      (by norm_num [limiterLast, runLimiterGo])⟩

end Shopify
